import Mathlib

/-!
Verification development for the OpenMATERIAL-Validation bidirectional
path tracer.  The C++ sources (`RenderScene.cpp`, `BDPTRenderer.cpp`,
`DistanceRandom.h`, `RandomSampler.h`, `UtilityFunctions.h`,
`RenderLightPoint.cpp`, `RenderMesh.cpp`) are shallowly embedded below:
`float` arithmetic is modelled over `ℚ` (with `ℝ`-valued relational
specifications where square roots are essential), owning pointer arrays
become `List`s of `Option`s, and the external Embree ray-intersection
engine is modelled as an oracle reporting the first hit inside the
queried `[tnear, tfar]` window.
-/

set_option maxRecDepth 4000

/-- Machine epsilon of `float` (`fEpsilon` in `defines.h`:
`std::numeric_limits<float>::epsilon()` = 2⁻²³), as a rational. -/
def fEps : ℚ := 1 / 2 ^ 23

/-- `BDPTRenderer::m_fEpsAcc = 3.0f` (`BDPTRenderer.h`). -/
def epsAcc : ℚ := 3

/-- A 3-component `float` vector (`fvec3` in `UtilityFunctions.h`),
modelled over `ℚ`. -/
structure V3 where
  x : ℚ
  y : ℚ
  z : ℚ
deriving DecidableEq

instance : Add V3 := ⟨fun a b => ⟨a.x + b.x, a.y + b.y, a.z + b.z⟩⟩
instance : Sub V3 := ⟨fun a b => ⟨a.x - b.x, a.y - b.y, a.z - b.z⟩⟩
instance : Neg V3 := ⟨fun a => ⟨-a.x, -a.y, -a.z⟩⟩
instance : Mul V3 := ⟨fun a b => ⟨a.x * b.x, a.y * b.y, a.z * b.z⟩⟩
instance : SMul ℚ V3 := ⟨fun k a => ⟨k * a.x, k * a.y, k * a.z⟩⟩
instance : Zero V3 := ⟨⟨0, 0, 0⟩⟩

/-- `dot3` from `UtilityFunctions.h`. -/
def dot3 (a b : V3) : ℚ := a.x * b.x + a.y * b.y + a.z * b.z

/-- `squareDistance3` from `UtilityFunctions.h`. -/
def squareDistance3 (a b : V3) : ℚ := dot3 (a - b) (a - b)

/-- `length3 a = sqrt (dot3 a a)` needs a square root, which `ℚ` lacks;
functions of the renderer that call it are parameterised by a square-root
oracle `sqrtQ : ℚ → ℚ` (the theorems below never depend on its values, or
are instantiated at perfect squares). -/
def length3Q (sqrtQ : ℚ → ℚ) (a : V3) : ℚ := sqrtQ (dot3 a a)

/-- `distance3` from `UtilityFunctions.h` (via the square-root oracle). -/
def distance3Q (sqrtQ : ℚ → ℚ) (a b : V3) : ℚ := length3Q sqrtQ (a - b)

/-- `normalize3` from `UtilityFunctions.h` over `ℚ` with the square-root
oracle: scales by the reciprocal length when it is nonzero, otherwise
returns the canonical default unit vector `(1,0,0)`. -/
def normalize3Q (sqrtQ : ℚ → ℚ) (a : V3) : V3 :=
  let L := length3Q sqrtQ a
  if L ≠ 0 then (1 / L) • a else ⟨1, 0, 0⟩

/-- `BDPTRenderer::intensity`: perceptual luminance
`0.299 r + 0.587 g + 0.114 b`. -/
def intensity (r : V3) : ℚ := 299/1000 * r.x + 587/1000 * r.y + 114/1000 * r.z

/-- `BDPTRenderer::maxAbsInVector(v, th)`: the conditional chain
`va0>va1&&va0>va2 ? va0 : (va1>va2 ? va1 : va2)`, then clamped below
by the threshold `th` (default `1.0f`). -/
def maxAbsInVector (v : V3) (th : ℚ) : ℚ :=
  let va0 := |v.x|
  let va1 := |v.y|
  let va2 := |v.z|
  let mv := if va0 > va1 ∧ va0 > va2 then va0 else if va1 > va2 then va1 else va2
  if mv < th then th else mv

/-! ### `DistanceRandom<float>` (`DistanceRandom.h`) -/

/-- State of `DistanceRandom<float>`: object count `m_iN`, the
`m_distances` array (raw weights before `calculate`, the prefix-sum CDF
after), and the running total `m_maxD`. -/
structure DistanceRandom where
  n : ℤ
  dist : List ℚ
  maxD : ℚ
deriving DecidableEq

/-- The default-constructed `DistanceRandom()`. -/
def DistanceRandom.init : DistanceRandom := ⟨0, [], 0⟩

/-- `DistanceRandom::setCount(N)`: frees and reallocates `m_distances`
(zero-filled by the model; the source leaves it uninitialised and every
slot is overwritten by `setDistance` before use); `m_maxD` is untouched. -/
def DistanceRandom.setCount (S : DistanceRandom) (N : ℤ) : DistanceRandom :=
  { S with n := N, dist := if N ≤ 0 then [] else List.replicate N.toNat 0 }

/-- `DistanceRandom::setDistance(id, d)`. -/
def DistanceRandom.setDistance (S : DistanceRandom) (id : ℤ) (d : ℚ) : DistanceRandom :=
  { S with dist := S.dist.set id.toNat d }

/-- In-place prefix sums, as `std::partial_sum` over `m_distances`. -/
def prefixSums (acc : ℚ) : List ℚ → List ℚ
  | [] => []
  | x :: xs => (acc + x) :: prefixSums (acc + x) xs

/-- `DistanceRandom::calculate()`: rewrites `m_distances` with its prefix
sums and stores the final sum `m_distances[m_iN-1]` in `m_maxD`. -/
def DistanceRandom.calculate (S : DistanceRandom) : DistanceRandom :=
  let ps := prefixSums 0 S.dist
  { S with dist := ps, maxD := ps.getD (S.n - 1).toNat 0 }

/-- The binary-search loop of `DistanceRandom::getValue`:
`while (L<R) { C=(L+R)/2; if (d<=D[C]) R=C; else L=C+1; } return (L+R)/2;`
written with explicit fuel (each iteration strictly shrinks `R-L`, so any
fuel `≥ R-L` is enough). -/
def bsearchGo (D : List ℚ) (d : ℚ) : ℕ → ℕ → ℕ → ℕ
  | 0, L, R => (L + R) / 2
  | f + 1, L, R =>
    if L < R then
      let C := (L + R) / 2
      if d ≤ D.getD C 0 then bsearchGo D d f L C
      else bsearchGo D d f (C + 1) R
    else (L + R) / 2

/-- `DistanceRandom::getValue(d)` (after `calculate`, `m_distances` holds
the CDF): early outs for `m_iN<=0`, `m_iN==1`, `d<=D[0]` and
`d>=D[m_iN-2]`, then the binary search on `[0, m_iN-1]`. -/
def DistanceRandom.getValue (S : DistanceRandom) (d : ℚ) : ℤ :=
  if S.n ≤ 0 then -1
  else if S.n = 1 then 0
  else if d ≤ S.dist.getD 0 0 then 0
  else if S.dist.getD (S.n - 2).toNat 0 ≤ d then S.n - 1
  else (bsearchGo S.dist d (S.n - 1).toNat 0 (S.n - 1).toNat : ℤ)

/-- `DistanceRandom::getRandom(rndVal) = getValue(rndVal*m_maxD)`. -/
def DistanceRandom.getRandom (S : DistanceRandom) (rndVal : ℚ) : ℤ :=
  S.getValue (rndVal * S.maxD)

/-- `DistanceRandom::getPdf(sample)`: CDF increment divided by the total
(0 for an out-of-range sample). -/
def DistanceRandom.getPdf (S : DistanceRandom) (sample : ℤ) : ℚ :=
  if sample < 0 ∨ S.n ≤ sample then 0
  else (S.dist.getD sample.toNat 0 -
        (if 0 < sample then S.dist.getD (sample - 1).toNat 0 else 0)) / S.maxD

/-! ### Scene entities (`RenderScene.h`, `RenderMesh.h/.cpp`) -/

/-- A scene material slot's payload.  `DiffuseColorMaterial` carries its
RGBA base color; the other `RenderMaterial` variants are identified
abstractly (their BSDF internals are irrelevant to the scene claims). -/
inductive RMaterial where
  | diffuse (r g b a : ℚ)
  | physicallyBased (id : ℕ)
  | openFresnel (id : ℕ)
deriving DecidableEq

/-- The object installed in the reserved slot by `RenderScene::allocate`:
`new DiffuseColorMaterial({BDPT_MISSING_MATERIAL_COLOR, 1.0f})`, where
`BDPT_MISSING_MATERIAL_COLOR` is `1000.0f, 0.0f, 1000.0f`. -/
def missingMaterial : RMaterial := .diffuse 1000 0 1000 1

/-- Discrete abstraction of `RenderMesh`: the scalar members that the
scene-level control flow reads.  `bufs` stands for both `m_pF` and
`m_pfV` being non-null; vertex positions/normals/tangents themselves are
not modelled (no claim depends on them), only their presence flags. -/
structure RenderMesh where
  id : ℤ
  vn : ℤ
  fn : ℤ
  bufs : Bool
  vertexDef : Bool
  normalDef : Bool
  tangentDef : Bool
  matId : ℤ
  embreeScene : Bool
deriving DecidableEq

/-- `RenderMesh::reset()` (also the default constructor). -/
def RenderMesh.reset : RenderMesh :=
  ⟨-1, 0, 0, false, false, false, false, -1, false⟩

/-- `RenderMesh::isValid()`:
`m_iVN>0 && m_iFN>0 && m_pfV && m_pF && m_bVertexDef`. -/
def RenderMesh.isValid (m : RenderMesh) : Prop :=
  0 < m.vn ∧ 0 < m.fn ∧ m.bufs = true ∧ m.vertexDef = true

instance (m : RenderMesh) : Decidable m.isValid := by
  unfold RenderMesh.isValid; infer_instance

/-- `RenderMesh::commitMesh(normalTexCh)`: an invalid mesh is freed
(which runs `reset()`) and reported as failure; a valid one gets lazy
normals/tangents (which only fill the vertex buffer, not the modelled
scalar fields) and succeeds. -/
def RenderMesh.commitMesh (m : RenderMesh) : RenderMesh × Bool :=
  if m.isValid then (m, true) else (RenderMesh.reset, false)

/-- `RenderMesh::allocate(index, vertN, facesN, texChannelsN, matIndex)`
followed by the buffer fills of `RenderScene::setMesh`: fresh buffers,
identity and counts set, definedness flags as provided by the caller. -/
def RenderMesh.allocateSet (index vertN facesN matIndex : ℤ)
    (hasVert hasNorm hasTan : Bool) : RenderMesh :=
  { id := index, vn := vertN, fn := facesN, bufs := true,
    vertexDef := hasVert, normalDef := hasNorm, tangentDef := hasTan,
    matId := matIndex, embreeScene := false }

/-- `RenderInstance` (`RenderMesh.h`): instance id, mesh id and the 4x4
transform (kept as an opaque list of its 16 entries; the derived
`m_normMatrix` is a pure function of it and is not modelled). -/
structure RenderInstance where
  instId : ℤ
  meshId : ℤ
  transform : List ℚ
deriving DecidableEq

/-- Model of a default (uninitialised-in-source) instance slot; no
theorem below depends on the contents of an instance that was never set,
except through `commitScene`, which invalidates it the same way for any
out-of-range `meshId`. -/
def RenderInstance.init : RenderInstance := ⟨-1, -1, []⟩

/-- `RenderLight` abstraction: its importance-sampling power
(`getPower()`, luminance-weighted intensity) plus an opaque payload
distinguishing concrete lights. -/
structure RenderLight where
  power : ℚ
  payload : ℕ
deriving DecidableEq

/-- `BitmapTexture`: width, height and an opaque tag for the pixel
buffer. -/
structure BitmapTexture where
  w : ℤ
  h : ℤ
  data : ℕ
deriving DecidableEq

/-- Entries appended to the caller-supplied `std::list<std::string>* log`
by `commitScene` / `buildEmbreeScene`, keyed by their information
content. -/
inductive LogEntry where
  | undefinedMaterial (meshIdx : ℕ) (matId : ℤ)
  | inconsistentMesh (meshIdx : ℕ)
  | invalidInstances (bad total : ℕ)
  | embreeDeviceNotInit
deriving DecidableEq

/-- `RenderScene` state.  Counts are carried by the list lengths
(`m_iMeshesN = meshes.length`, `m_iMaterialsN = materials.length - 1`
because `allocate` sizes the material array at `matN + 2`).  `accel`
models the committed Embree top-level structure: the geometry ids of the
per-mesh bottom-level scenes and of the attached instances. -/
structure RenderScene where
  meshes : List RenderMesh
  instances : List RenderInstance
  materials : List (Option RMaterial)
  lights : List (Option RenderLight)
  textures : List BitmapTexture
  lightsSampler : DistanceRandom
  traceReady : Bool
  deviceOk : Bool
  accel : Option (List ℕ × List ℕ)
deriving DecidableEq

/-- `m_iMaterialsN` of a scene (its `allocate` sets it to `matN + 1` and
sizes the array at `matN + 2`). -/
def RenderScene.materialsN (s : RenderScene) : ℤ := (s.materials.length : ℤ) - 1

/-- `RenderScene::allocate(meshN, instN, matN, textN, ligN)`: frees and
re-creates every array; the material array gets `matN + 2` null slots
with the missing-material object at index `matN` (one past the caller's
last material, `m_iMaterialsN - 1`). -/
def RenderScene.allocate (meshN instN matN textN ligN : ℕ) (deviceOk : Bool) : RenderScene :=
  { meshes := List.replicate meshN RenderMesh.reset,
    instances := List.replicate instN RenderInstance.init,
    materials := (List.replicate (matN + 2) none).set matN (some missingMaterial),
    lights := List.replicate ligN none,
    textures := List.replicate textN ⟨0, 0, 0⟩,
    lightsSampler := DistanceRandom.init.setCount 0,
    traceReady := false,
    deviceOk := deviceOk,
    accel := none }

/-- `RenderScene::setMesh`: bounds-checked no-op outside
`[0, m_iMeshesN)`, otherwise re-allocates and fills the addressed mesh
slot. -/
def RenderScene.setMesh (s : RenderScene) (meshId : ℤ) (vertN facesN matId : ℤ)
    (hasVert hasNorm hasTan : Bool) : RenderScene :=
  if meshId < 0 ∨ (s.meshes.length : ℤ) ≤ meshId then s
  else { s with meshes := (s.meshes.set meshId.toNat
          (RenderMesh.allocateSet meshId vertN facesN matId hasVert hasNorm hasTan)) }

/-- `RenderScene::setInstance`: bounds-checked no-op, otherwise writes
instance id, mesh id and transform (and the derived normal matrix, not
modelled). -/
def RenderScene.setInstance (s : RenderScene) (instId : ℤ) (trans : List ℚ)
    (meshId : ℤ) : RenderScene :=
  if instId < 0 ∨ (s.instances.length : ℤ) ≤ instId then s
  else { s with instances := s.instances.set instId.toNat ⟨instId, meshId, trans⟩ }

/-- `RenderScene::setMaterial`: rejects `matId < 0` and
`matId >= m_iMaterialsN - 1`, so the reserved missing-material slot at
index `m_iMaterialsN - 1` can never be addressed. -/
def RenderScene.setMaterial (s : RenderScene) (matId : ℤ)
    (newMaterial : Option RMaterial) : RenderScene :=
  if matId < 0 ∨ s.materialsN - 1 ≤ matId then s
  else { s with materials := s.materials.set matId.toNat newMaterial }

/-- `RenderScene::setLight`: bounds-checked no-op, otherwise writes the
addressed light slot. -/
def RenderScene.setLight (s : RenderScene) (lightId : ℤ)
    (newLight : Option RenderLight) : RenderScene :=
  if lightId < 0 ∨ (s.lights.length : ℤ) ≤ lightId then s
  else { s with lights := s.lights.set lightId.toNat newLight }

/-- `RenderScene::setTexture`: bounds-checked no-op, otherwise writes the
addressed texture slot. -/
def RenderScene.setTexture (s : RenderScene) (texId : ℤ) (tw th : ℤ)
    (data : ℕ) : RenderScene :=
  if texId < 0 ∨ (s.textures.length : ℤ) ≤ texId then s
  else { s with textures := s.textures.set texId.toNat ⟨tw, th, data⟩ }

/-! ### `RenderScene::commitScene` / `buildEmbreeScene` (`RenderScene.cpp`) -/

/-- The material-resolution stage of the mesh loop of `commitScene` for
mesh `i`: an in-range index whose slot is non-null
is kept (and queried for its normal-map channel — which only steers the
unmodelled tangent generation); an in-range null slot is logged and
substituted by the reserved slot `m_iMaterialsN - 1`; an out-of-range
index is substituted silently. -/
def resolveMeshMaterial (materials : List (Option RMaterial)) (materialsN : ℤ)
    (i : ℕ) (m : RenderMesh) : RenderMesh × List LogEntry :=
  if 0 ≤ m.matId ∧ m.matId < materialsN then
    match materials.getD m.matId.toNat none with
    | some _ => (m, ([] : List LogEntry))
    | none => ({ m with matId := materialsN - 1 }, [LogEntry.undefinedMaterial i m.matId])
  else ({ m with matId := materialsN - 1 }, [])

/-- One iteration of the mesh loop of `commitScene` over mesh `i`:
material resolution followed by `commitMesh` with a failure log. -/
def commitMeshStep (materials : List (Option RMaterial)) (materialsN : ℤ)
    (i : ℕ) (m : RenderMesh) : RenderMesh × List LogEntry :=
  let resolved := resolveMeshMaterial materials materialsN i m
  let committed := resolved.1.commitMesh
  (committed.1, resolved.2 ++ if committed.2 then [] else [LogEntry.inconsistentMesh i])

/-- The instance-invalidation test of `commitScene`:
`m_iMeshId<0 || m_iMeshId>=m_iMeshesN || !m_pMeshes[m_iMeshId].isValid()`. -/
def instanceInvalid (meshes : List RenderMesh) (ri : RenderInstance) : Prop :=
  ri.meshId < 0 ∨ (meshes.length : ℤ) ≤ ri.meshId ∨
    ¬(meshes.getD ri.meshId.toNat RenderMesh.reset).isValid

instance (meshes : List RenderMesh) (ri : RenderInstance) :
    Decidable (instanceInvalid meshes ri) := by
  unfold instanceInvalid; infer_instance

/-- Writes the light powers into a `DistanceRandom` via `setDistance`
(the lights loop of `commitScene`; a null light pointer would be
dereferenced by the source — the model reads power 0 for it upstream). -/
def fillDistances (S : DistanceRandom) (powers : List ℚ) : DistanceRandom :=
  powers.enum.foldl (fun T p => T.setDistance (p.1 : ℤ) p.2) S

/-- The light-sampler construction of `commitScene` starting from the
current sampler state: `setCount`, the `setDistance` loop, and
`calculate()` guarded by `m_iLightsN > 0`. -/
def commitLightSamplerFrom (S : DistanceRandom) (powers : List ℚ) : DistanceRandom :=
  let S1 := fillDistances (S.setCount (powers.length : ℤ)) powers
  if 0 < powers.length then S1.calculate else S1

/-- `RenderScene::buildEmbreeScene(log)`: fails when the Embree device is
absent (the `rtcNewScene`-failure branch is folded into the same flag);
otherwise creates one bottom-level scene per valid mesh, attaches one
instance geometry per instance with a nonnegative mesh id whose mesh got
a bottom-level scene, marks the scene trace-ready and succeeds. -/
def RenderScene.buildEmbreeScene (s : RenderScene) (log : List LogEntry) :
    RenderScene × Bool × List LogEntry :=
  if s.deviceOk = false then (s, false, log ++ [LogEntry.embreeDeviceNotInit])
  else
    let meshes2 := s.meshes.map (fun m => if m.isValid then { m with embreeScene := true } else m)
    let blas := (s.meshes.enum.filter (fun p => decide p.2.isValid)).map Prod.fst
    let tlas := (s.instances.enum.filter (fun p =>
        decide (0 ≤ p.2.meshId) &&
        (meshes2.getD p.2.meshId.toNat RenderMesh.reset).embreeScene)).map Prod.fst
    ({ s with meshes := meshes2, accel := some (blas, tlas), traceReady := true }, true, log)

/-- The mesh loop of `commitScene`: per-mesh results of
`commitMeshStep`, indexed by position. -/
def commitSceneMeshResults (s : RenderScene) : List (RenderMesh × List LogEntry) :=
  s.meshes.enum.map (fun p => commitMeshStep s.materials s.materialsN p.1 p.2)

/-- The meshes of the scene after the mesh loop of `commitScene`. -/
def commitSceneMeshes (s : RenderScene) : List RenderMesh :=
  (commitSceneMeshResults s).map Prod.fst

/-- The log entries appended by the mesh loop of `commitScene`. -/
def commitSceneMeshLog (s : RenderScene) : List LogEntry :=
  ((commitSceneMeshResults s).map Prod.snd).flatten

/-- The `falseInst` counter of `commitScene`: how many instances fail
the validity test against the committed meshes. -/
def commitSceneFalseInst (s : RenderScene) : ℕ :=
  (s.instances.filter (fun ri => decide (instanceInvalid (commitSceneMeshes s) ri))).length

/-- The texture/sampler injection loop of `commitScene` dereferences
every material slot in `[0, m_iMaterialsN)` unconditionally
(`m_ppMaterials[i]->setTextures(...)`): a null slot in that range is a
null-pointer dereference that aborts the program. -/
def materialsInjectionCrash (s : RenderScene) : Bool :=
  (List.range s.materialsN.toNat).any (fun i => (s.materials.getD i none).isNone)

/-- The lights loop of `commitScene` dereferences every light slot in
`[0, m_iLightsN)` unconditionally (`m_ppLights[i]->m_iIndex=i`): a null
slot is a null-pointer dereference that aborts the program. -/
def lightsLoopCrash (s : RenderScene) : Bool :=
  s.lights.any (fun l => l.isNone)

/-- `RenderScene::commitScene(log)`: early `true` when already
trace-ready; mesh material-resolution/commit loop; instance
invalidation with `falseInst` count (failure when all instances end up
invalid); texture/sampler injection into the materials (which leaves the
modelled slots untouched, but dereferences every slot below
`m_iMaterialsN`, so a null slot there crashes the program — modelled as
`none`); the lights loop (likewise crashing on a null light); light-CDF
build; Embree build.  Returns `none` for a crash, otherwise the mutated
scene, the success flag and the appended log entries. -/
def RenderScene.commitScene (s : RenderScene) :
    Option (RenderScene × Bool × List LogEntry) :=
  if s.traceReady then some (s, true, [])
  else
    let meshes1 := commitSceneMeshes s
    let meshLog := commitSceneMeshLog s
    let instances1 := s.instances.map (fun ri =>
        if instanceInvalid meshes1 ri then { ri with meshId := -1 } else ri)
    let falseInst := commitSceneFalseInst s
    let instLog := if falseInst ≠ 0 then
        [LogEntry.invalidInstances falseInst s.instances.length] else []
    let s1 := { s with meshes := meshes1, instances := instances1 }
    if falseInst = s.instances.length then some (s1, false, meshLog ++ instLog)
    else if materialsInjectionCrash s then none
    else if lightsLoopCrash s then none
    else
      let powers := s.lights.map (fun l => (l.map RenderLight.power).getD 0)
      let s2 := { s1 with lightsSampler := commitLightSamplerFrom s.lightsSampler powers }
      let built := s2.buildEmbreeScene []
      some (built.1, built.2.1, meshLog ++ instLog ++ built.2.2)

/-- `RenderScene::sampleLight(pdf)`: draws the shared sampler (modelled
as the explicit variate `r`), binary-searches the CDF through
`getRandom`, returns the selected light index (none for a negative id)
and its selection probability. -/
def RenderScene.sampleLight (s : RenderScene) (r : ℚ) : Option ℕ × ℚ :=
  let id := s.lightsSampler.getRandom r
  (if 0 ≤ id then some id.toNat else none, s.lightsSampler.getPdf id)

/-! ### Renderer (`BDPTRenderer.cpp`, `RendererParameters.h`) -/

/-- The tunables of `RendererParameters` that the embedded renderer
functions read (camera/light bounce counts as naturals — negative counts
are not a meaningful configuration). -/
structure RendererParameters where
  cameraBouncesN : ℕ
  lightBouncesN : ℕ
  lightDistanceAttenuation : ℤ
  lightScaleValue : ℚ
  lightMinDistance : ℚ
  maxPathLength : ℕ
  rayCutPixValue : ℚ
deriving DecidableEq

/-- `BDPTRenderer::computeLightAttenuation(d, attD)`; `attD = none`
models `attD >= std::numeric_limits<float>::max()` (no specific
attenuation distance).  The finite quadratic branch takes a square root
through the oracle. -/
def computeLightAttenuation (p : RendererParameters) (sqrtQ : ℚ → ℚ)
    (d : ℚ) (attD : Option ℚ) : ℚ :=
  match attD with
  | none =>
    let d := if d < p.lightMinDistance then p.lightMinDistance else d
    if p.lightDistanceAttenuation = 1 then 1 / d
    else if p.lightDistanceAttenuation = 2 then 1 / (d * d)
    else 1
  | some attD =>
    let rD := max (1 - d / attD) 0
    if p.lightDistanceAttenuation = 1 then rD
    else if p.lightDistanceAttenuation = 2 then sqrtQ rD
    else if d < attD then 1 else 0

/-- A hit reported by the intersection oracle: the ray parameter `t`
(what Embree writes into `ray.tfar`), whether the material at the hit
surface answers `isMasked` true there, and an identifier standing for
the `SurfacePoint` data that `computeSurfacePoint` would fill. -/
structure RHit where
  t : ℚ
  masked : Bool
  spId : ℕ
deriving DecidableEq

/-- The external engine's `rtcIntersect1` on the ray window
`[tnear, tfar]`: the first (closest) reported hit, or none.  The oracle
is the ordered list of the intersections along the ray. -/
def firstHit (hits : List RHit) (tnear tfar : ℚ) : Option RHit :=
  hits.find? (fun h => decide (tnear ≤ h.t) && decide (h.t ≤ tfar))

/-- The `tnear` advance that `sceneIntersect` performs after a masked
hit at parameter `t` on the ray `org + t·dir`:
`v = max(maxAbsInVector(org + t·dir), t)`, `delta = m_fEpsAcc*fEpsilon*v`. -/
def maskedAdvance (org dir : V3) (t : ℚ) : ℚ :=
  let o := org + t • dir
  let v0 := maxAbsInVector o 1
  let v := if v0 > t then v0 else t
  epsAcc * fEps * v

/-- The iteration loop of `BDPTRenderer::sceneIntersect` with the
per-call iteration budget (`maxItr = 10`) as fuel; returns the found
non-masked hit (or none) together with the number of `rtcIntersect1`
queries issued.  `t1` is the `tfar` captured at entry. -/
def sceneIntersectGo (hits : List RHit) (org dir : V3) (t1 : ℚ) :
    ℕ → ℚ → ℚ → Option RHit × ℕ
  | 0, _, _ => (none, 0)
  | itr + 1, tnear, tfar =>
    match firstHit hits tnear tfar with
    | none => (none, 1)
    | some h =>
      if h.masked = false then (some h, 1)
      else
        let tnear' := h.t + maskedAdvance org dir h.t
        if t1 ≤ tnear' then (none, 1)
        else
          let rest := sceneIntersectGo hits org dir t1 itr tnear' t1
          (rest.1, rest.2 + 1)

/-- `BDPTRenderer::sceneIntersect`: starts from the caller's
`[tnear, tfar]` window with `maxItr = 10`. -/
def sceneIntersect (hits : List RHit) (org dir : V3) (tnear tfar : ℚ) :
    Option RHit × ℕ :=
  sceneIntersectGo hits org dir tfar 10 tnear tfar

/-- One `BDPTPathPart` (`BDPTRenderer.h`): outgoing ray direction, the
surface point's position and (shading) normal, accumulated outgoing
radiance and the cumulative throughput factor. -/
structure BDPTPathPart where
  outRay : V3
  pos : V3
  normal : V3
  outRad : V3
  outFactor : V3
deriving DecidableEq

/-- What one extension step of `computePath` obtains from
`sceneIntersect` + `modifyFrame` + `getRayAndBrdf` at vertex `i`: the
surface point (position, shading normal), the sampled next direction,
the BSDF factor and the emitted radiance.  `none` models a ray that
exited the scene. -/
structure PathStepHit where
  pos : V3
  normal : V3
  nextRay : V3
  brdf : V3
  erad : V3
deriving DecidableEq

/-- The extension loop of `BDPTRenderer::computePath`
(`for (int i=1; i<max_n; ++i)`), with the step oracle indexed by `i`.
Returns the written parts `P[1..]`, the number of completed `n++`
increments, the `sceneExit` flag and the final `Rad`.  A light path
(`inv = false`) breaks before `n++` when the intensity of the vertex
radiance falls below the cutoff — the part is already written. -/
def computePathGo (step : ℕ → Option PathStepHit) (p : RendererParameters)
    (inv : Bool) (attD : Option ℚ) (sqrtQ : ℚ → ℚ) :
    ℕ → ℕ → BDPTPathPart → V3 → ℚ → List BDPTPathPart × ℕ × Bool × V3
  | 0, _, _, Rad, _ => ([], 0, false, Rad)
  | fuel + 1, i, prev, Rad, rDterm =>
    match step i with
    | none => ([], 0, true, Rad)
    | some h =>
      let ct := |if inv then dot3 h.nextRay h.normal else dot3 prev.outRay h.normal|
      let factor := ct • (prev.outFactor * h.brdf)
      if inv then
        let Rad' := Rad + factor * h.erad
        let part : BDPTPathPart := ⟨h.nextRay, h.pos, h.normal, 0, factor⟩
        let rest := computePathGo step p inv attD sqrtQ fuel (i + 1) part Rad' rDterm
        (part :: rest.1, rest.2.1 + 1, rest.2.2)
      else
        let rDterm' := if i = 1 then
            computeLightAttenuation p sqrtQ (distance3Q sqrtQ h.pos prev.pos) attD
          else rDterm
        let outRad := rDterm' • (factor * Rad)
        let part : BDPTPathPart := ⟨h.nextRay, h.pos, h.normal, outRad, factor⟩
        if intensity outRad < p.rayCutPixValue then (part :: [], 0, false, Rad)
        else
          let rest := computePathGo step p inv attD sqrtQ fuel (i + 1) part Rad rDterm'
          (part :: rest.1, rest.2.1 + 1, rest.2.2)

/-- `BDPTRenderer::computePath(P, max_n, O, R, Rad, n, inv, attD)`:
seeds `P[0]` with the origin data and unit factor, runs the extension
loop, and returns the full written buffer, the vertex count `n`
(starting at 1), the scene-exit flag and the final `Rad`. -/
def computePath (step : ℕ → Option PathStepHit) (p : RendererParameters)
    (inv : Bool) (attD : Option ℚ) (sqrtQ : ℚ → ℚ) (O R Rad0 : V3)
    (maxN : ℕ) : List BDPTPathPart × ℕ × Bool × V3 :=
  let p0 : BDPTPathPart := ⟨R, O, 0, Rad0, ⟨1, 1, 1⟩⟩
  let rest := computePathGo step p inv attD sqrtQ (maxN - 1) 1 p0 Rad0 1
  (p0 :: rest.1, rest.2.1 + 1, rest.2.2)

/-- What `computePaths` consumes from the light source returned by
`tryComputeLightPath`: `getRadianceAlongRay`'s radiance as a function of
the queried direction, and `getAttenuationDistance()`. -/
structure LightConn where
  radAlong : V3 → V3
  attD : Option ℚ

/-- The inputs of the accumulation stage of `BDPTRenderer::computePaths`
(lines 250-301): the camera sub-path result (`cp_exit`, buffer, length,
and the radiance already accumulated from emissive hits), the optional
background radiance oracle, the optional light source with its sub-path
buffer and length, the camera-vertex material `getBrdf` oracle (indexed
by the camera vertex `j`, taking the light direction and the reversed
previous ray), and the `isConnected` visibility oracle. -/
structure CombineIn where
  cpExit : Bool
  cpLen : ℕ
  cp : ℕ → BDPTPathPart
  rad0 : V3
  bg : Option (V3 → V3)
  lp : Option (LightConn × ℕ × (ℕ → BDPTPathPart))
  brdfO : ℕ → V3 → V3 → V3
  connO : V3 → V3 → Bool
  sqrtQ : ℚ → ℚ

/-- One candidate light/camera connection `(i, j)` of the double loop of
`computePaths`: `none` when a cutoff test or the visibility query
rejects it, otherwise the radiance `lcRad` deposited by
`increaseRadiance`. -/
def connAttempt (p : RendererParameters) (q : CombineIn) (light : LightConn)
    (lpbuf : ℕ → BDPTPathPart) (i j : ℕ) : Option V3 :=
  let lPos := (lpbuf i).pos
  let cPos := (q.cp j).pos
  let LCdir := normalize3Q q.sqrtQ (cPos - lPos)
  let lRad :=
    if i = 0 then
      let lr := light.radAlong LCdir
      let lsc := computeLightAttenuation p q.sqrtQ (distance3Q q.sqrtQ cPos lPos) light.attD
      (p.lightScaleValue * lsc) • lr
    else (lpbuf i).outRad
  let c := |dot3 LCdir (q.cp j).normal|
  let kf := (q.cp (j - 1)).outFactor
  let lcRad1 := c • (lRad * kf)
  if intensity lcRad1 < p.rayCutPixValue then none
  else
    let outV := -(q.cp (j - 1)).outRay
    let brdf := c • q.brdfO j LCdir outV
    let lcRad := brdf * kf * lRad
    if intensity lcRad < p.rayCutPixValue then none
    else if q.connO lPos cPos then some lcRad
    else none

/-- The index set of the connection double loop:
`for i in [0, lp_len)`, `for j in [1, cp_len)` while `i+j <= maxPathLength`. -/
def connPairs (lpLen cpLen maxPL : ℕ) : List (ℕ × ℕ) :=
  (List.range lpLen).flatMap (fun i =>
    ((List.range cpLen).filter (fun j => decide (1 ≤ j) && decide (i + j ≤ maxPL))).map
      (fun j => (i, j)))

/-- Result of the accumulation stage of `computePaths`: the contributing
term counter `totalPN`, the accumulated radiance before the final
normalization, and the returned pixel radiance. -/
structure CombineOut where
  totalPN : ℕ
  radSum : V3
  radiance : V3
deriving DecidableEq

/-- Lines 250-301 of `BDPTRenderer::computePaths`: count/accumulate the
background or emissive-surface contribution (`totalPN` is incremented in
those two mutually exclusive branches only), add every accepted
light/camera connection, then scale by `totalPN ? 1/totalPN : 1`. -/
def computePathsCombine (p : RendererParameters) (q : CombineIn) : CombineOut :=
  let bgStep : V3 × ℕ :=
    if q.cpExit ∧ q.bg.isSome ∧ q.cpLen ≤ p.maxPathLength then
      let bgRad := (q.bg.getD (fun _ => 0)) ((q.cp (q.cpLen - 1)).outRay)
      let kf := (q.cp (q.cpLen - 1)).outFactor
      (q.rad0 + bgRad * kf, 1)
    else if intensity q.rad0 > fEps then (q.rad0, 1) else (q.rad0, 0)
  let radSum :=
    match q.lp with
    | none => bgStep.1
    | some (light, lpLen, lpbuf) =>
      (connPairs lpLen q.cpLen p.maxPathLength).foldl
        (fun acc ij => acc + (connAttempt p q light lpbuf ij.1 ij.2).getD 0) bgStep.1
  let scale := if bgStep.2 ≠ 0 then 1 / (bgStep.2 : ℚ) else 1
  ⟨bgStep.2, radSum, scale • radSum⟩

/-- The number of accepted light/camera connections of the double loop
(the contributions the claim says must each increment the divisor). -/
def acceptedConnN (p : RendererParameters) (q : CombineIn) : ℕ :=
  match q.lp with
  | none => 0
  | some (light, lpLen, lpbuf) =>
    ((connPairs lpLen q.cpLen p.maxPathLength).filter
      (fun ij => (connAttempt p q light lpbuf ij.1 ij.2).isSome)).length

/-- The accumulation stage as the specification words it ("each counted
contribution, including every accepted light-to-camera connection,
increments the divisor"): same accumulation, but the final scale divides
by the background/emissive count plus the accepted-connection count. -/
def computePathsCombineClaim (p : RendererParameters) (q : CombineIn) : CombineOut :=
  let actual := computePathsCombine p q
  let totalPN := actual.totalPN + acceptedConnN p q
  let scale := if totalPN ≠ 0 then 1 / (totalPN : ℚ) else 1
  ⟨totalPN, actual.radSum, scale • actual.radSum⟩

/-! ### Real-valued relational specifications (`RandomSampler.h`,
`UtilityFunctions.h` normalization, `RenderLightPoint.cpp`).
`float` square roots are modelled by `Real.sqrt`, so these embeddings
are stated as relations over `ℝ`. -/

/-- A 3-vector over `ℝ` for the square-root-dependent code. -/
structure V3R where
  x : ℝ
  y : ℝ
  z : ℝ

instance : SMul ℝ V3R := ⟨fun k a => ⟨k * a.x, k * a.y, k * a.z⟩⟩

/-- `dot3` over `ℝ`. -/
def dot3R (a b : V3R) : ℝ := a.x * b.x + a.y * b.y + a.z * b.z

/-- `normalize3(a, r)` from `UtilityFunctions.h` as a relation over `ℝ`:
`L = length3(a)`; if `L != 0` the result is `a` scaled by `1/L`,
otherwise the canonical default unit vector `(1,0,0)`. -/
def normalize3R (a r : V3R) : Prop :=
  (Real.sqrt (dot3R a a) ≠ 0 ∧ r = (1 / Real.sqrt (dot3R a a)) • a) ∨
  (Real.sqrt (dot3R a a) = 0 ∧ r = ⟨1, 0, 0⟩)

/-- `normalizeIfNeeded3(a, r, eps)` from `UtilityFunctions.h` as a
relation over `ℝ`: copy `a` when `sL = dot3(a,a)` lies inside
`(1-eps, 1+eps)`, otherwise normalize with the same zero-length default
as `normalize3`. -/
def normalizeIfNeeded3R (eps : ℝ) (a r : V3R) : Prop :=
  (dot3R a a < 1 + eps ∧ 1 - eps < dot3R a a ∧ r = a) ∨
  (¬(dot3R a a < 1 + eps ∧ 1 - eps < dot3R a a) ∧
    ((Real.sqrt (dot3R a a) ≠ 0 ∧ r = (1 / Real.sqrt (dot3R a a)) • a) ∨
     (Real.sqrt (dot3R a a) = 0 ∧ r = ⟨1, 0, 0⟩)))


/-- Membership in `[0,1)³`: what one `randN(v, 3)` draw of
`RandomSampler` (three `std::uniform_real_distribution<float>(0,1)`
samples) always produces. -/
def inUnitCube01 (v : V3R) : Prop :=
  0 ≤ v.x ∧ v.x < 1 ∧ 0 ≤ v.y ∧ v.y < 1 ∧ 0 ≤ v.z ∧ v.z < 1

/-- The exit condition of the rejection loop of
`RandomSampler::uniformSphere`: `!(sl > 1 || sl < fEpsilon)` with
`fEpsilon = 2⁻²³`. -/
def sphereAccept (v : V3R) : Prop := dot3R v v ≤ 1 ∧ 1 / 2 ^ 23 ≤ dot3R v v

/-- `RandomSampler::uniformSphere(v)` as a relation between the stream
of candidate draws (each one `randN(v,3)` iteration of the do-while
loop) and the returned vector: the first accepted candidate, scaled by
`1/sqrt(sl)`. -/
def uniformSphere (cands : ℕ → V3R) (v : V3R) : Prop :=
  ∃ n, sphereAccept (cands n) ∧ (∀ m, m < n → ¬sphereAccept (cands m)) ∧
    v = (1 / Real.sqrt (dot3R (cands n) (cands n))) • cands n

/-- `RenderLightPoint` data: position, RGB intensity, range. -/
structure RenderLightPoint where
  position : V3R
  intensityRGB : V3R
  range : ℝ

/-- `RenderLightPoint::getRandomRay(O, R, pdf, radiance)` as a relation
(with the sampler's candidate stream explicit): the direction comes from
`uniformSphere`, the origin is the light position, `pdf = 1/(4π)`, the
radiance is the light intensity. -/
def RenderLightPoint.getRandomRay (L : RenderLightPoint) (cands : ℕ → V3R)
    (O R : V3R) (pdf : ℝ) (radiance : V3R) : Prop :=
  uniformSphere cands R ∧ O = L.position ∧ pdf = 1 / (4 * Real.pi) ∧
    radiance = L.intensityRGB

/-! ### Reachable scene states and auxiliary spec-side definitions -/

/-- Scene states reachable from `allocate(_, _, matN, _, _)` through the
public setters and `commitScene` (the operations that could conceivably
touch the material array before the scene is freed). -/
inductive SceneReach (matN : ℕ) : RenderScene → Prop where
  | alloc (meshN instN textN ligN : ℕ) (dev : Bool) :
      SceneReach matN (RenderScene.allocate meshN instN matN textN ligN dev)
  | setMesh (s : RenderScene) (a b c d : ℤ) (e f g : Bool) :
      SceneReach matN s → SceneReach matN (s.setMesh a b c d e f g)
  | setInstance (s : RenderScene) (a : ℤ) (t : List ℚ) (b : ℤ) :
      SceneReach matN s → SceneReach matN (s.setInstance a t b)
  | setMaterial (s : RenderScene) (a : ℤ) (m : Option RMaterial) :
      SceneReach matN s → SceneReach matN (s.setMaterial a m)
  | setLight (s : RenderScene) (a : ℤ) (l : Option RenderLight) :
      SceneReach matN s → SceneReach matN (s.setLight a l)
  | setTexture (s : RenderScene) (a b c : ℤ) (d : ℕ) :
      SceneReach matN s → SceneReach matN (s.setTexture a b c d)
  | commit (s : RenderScene) (r : RenderScene × Bool × List LogEntry) :
      SceneReach matN s → s.commitScene = some r → SceneReach matN r.1

/-- The least index `k` with `d ≤ D[k]` (or `D.length` when none): the
selector that the claim's CDF-segment rule `CDF[k-1] < d ≤ CDF[k]`
describes. -/
def leastK (d : ℚ) : List ℚ → ℕ
  | [] => 0
  | x :: xs => if d ≤ x then 0 else leastK d xs + 1

/-- Membership of an undefined-material log entry for mesh `i`. -/
def hasUndefEntry (log : List LogEntry) (i : ℕ) : Prop :=
  ∃ mid, LogEntry.undefinedMaterial i mid ∈ log

/-! ### Concrete example inputs used by witnesses and counterexamples -/

/-- Renderer parameters for the concrete `computePaths` evaluation:
attenuation mode 0, unit light scale, `maxPathLength = 8`,
`rayCutPixValue = 0.002`. -/
def exParams : RendererParameters := ⟨10, 10, 0, 1, 1/100, 8, 1/500⟩

/-- Camera-path origin part: camera at the origin shooting along `+z`. -/
def exCamPart0 : BDPTPathPart := ⟨⟨0, 0, 1⟩, ⟨0, 0, 0⟩, ⟨0, 0, 0⟩, ⟨0, 0, 0⟩, ⟨1, 1, 1⟩⟩

/-- First camera hit: surface point at `(0,0,1)` with normal `(-1,0,0)`
and unit throughput. -/
def exCamPart1 : BDPTPathPart := ⟨⟨0, 0, 1⟩, ⟨0, 0, 1⟩, ⟨-1, 0, 0⟩, ⟨0, 0, 0⟩, ⟨1, 1, 1⟩⟩

/-- Light-path origin part: point light at `(1,0,1)` with unit radiance. -/
def exLightPart0 : BDPTPathPart := ⟨⟨-1, 0, 0⟩, ⟨1, 0, 1⟩, ⟨0, 0, 0⟩, ⟨1, 1, 1⟩, ⟨1, 1, 1⟩⟩

/-- Accumulation-stage input with one background contribution and one
accepted light/camera connection: camera path of length 2 that exited the
scene, background radiance `(1,0,0)`, one-vertex light path, unit BSDF,
always-visible connection (all evaluated square roots are at 1). -/
def exCombineIn : CombineIn :=
  { cpExit := true
    cpLen := 2
    cp := fun j => if j = 1 then exCamPart1 else exCamPart0
    rad0 := 0
    bg := some (fun _ => ⟨1, 0, 0⟩)
    lp := some (⟨fun _ => ⟨1, 1, 1⟩, none⟩, 1, fun _ => exLightPart0)
    brdfO := fun _ _ _ => ⟨1, 1, 1⟩
    connO := fun _ _ => true
    sqrtQ := fun q => if q = 1 then 1 else 0 }

/-- A scene that commits successfully: one valid one-triangle mesh
bound to the (existing) material slot 0, one instance referencing it. -/
def exSceneOk : RenderScene :=
  ((RenderScene.allocate 1 1 0 0 0 true).setMesh 0 1 1 0 true false false).setInstance 0 [] 0

/-- A scene whose commit fails: the single mesh references the in-range
null material slot 0 and is degenerate (no vertices), so its only
instance is invalidated. -/
def exSceneFail : RenderScene :=
  ((RenderScene.allocate 1 1 1 0 0 true).setMesh 0 0 0 0 false false false).setInstance 0 [] 0

/-- A scene whose single (valid) mesh references the out-of-range
material index `5` (allocated with `matN = 0`, so the only slot below
`m_iMaterialsN = 1` is the missing-material slot and the texture
injection loop of `commitScene` finds no null pointer). -/
def exSceneOutOfRange : RenderScene :=
  ((RenderScene.allocate 1 1 0 0 0 true).setMesh 0 1 1 5 true false false).setInstance 0 [] 0

/-! ## Theorems -/

theorem smul_V3R_def (k : ℝ) (a : V3R) : k • a = ⟨k * a.x, k * a.y, k * a.z⟩ := rfl

theorem dot3R_smul (k : ℝ) (a : V3R) :
    dot3R (k • a) (k • a) = k ^ 2 * dot3R a a := by
  simp only [smul_V3R_def, dot3R]; ring

theorem dot3R_zero : dot3R ⟨0, 0, 0⟩ ⟨0, 0, 0⟩ = 0 := by
  simp [dot3R]

theorem dot3R_pos_of_ne
    (a : V3R) (h : ¬(a.x = 0 ∧ a.y = 0 ∧ a.z = 0)) : 0 < dot3R a a := by
  unfold dot3R
  rcases not_and_or.mp h with hx | h'
  · nlinarith [sq_nonneg a.x, sq_nonneg a.y, sq_nonneg a.z, sq_abs a.x,
      abs_pos.mpr hx, sq_nonneg (|a.x| - 1), mul_self_pos.mpr hx]
  · rcases not_and_or.mp h' with hy | hz
    · nlinarith [sq_nonneg a.x, sq_nonneg a.z, mul_self_pos.mpr hy]
    · nlinarith [sq_nonneg a.x, sq_nonneg a.y, mul_self_pos.mpr hz]

/-- C10: `normalize3` applied to the zero vector returns the canonical
default unit vector `(1,0,0)` (and `normalizeIfNeeded3` does the same
for zero-length input, for any positive tolerance below 1 — the source
default `10·ε` included); for every non-zero input `a`, `normalize3`
returns `a` scaled by the reciprocal of its length, a unit-length
vector (exactly, in the real-number model). -/
theorem normalize3_spec :
    (∀ r : V3R, normalize3R ⟨0, 0, 0⟩ r → r = ⟨1, 0, 0⟩) ∧
    (∀ (eps : ℝ) (r : V3R), 0 < eps → eps < 1 →
      normalizeIfNeeded3R eps ⟨0, 0, 0⟩ r → r = ⟨1, 0, 0⟩) ∧
    (∀ a r : V3R, ¬(a.x = 0 ∧ a.y = 0 ∧ a.z = 0) → normalize3R a r →
      r = (1 / Real.sqrt (dot3R a a)) • a ∧ dot3R r r = 1 ∧
        Real.sqrt (dot3R r r) = 1) := by
  refine ⟨?_, ?_, ?_⟩
  · intro r h
    rcases h with ⟨hne, _⟩ | ⟨_, hr⟩
    · exact absurd (by rw [dot3R_zero, Real.sqrt_zero]) hne
    · exact hr
  · intro eps r heps heps1 h
    rcases h with ⟨_, h2, _⟩ | ⟨_, h⟩
    · rw [dot3R_zero] at h2; linarith
    · rcases h with ⟨hne, _⟩ | ⟨_, hr⟩
      · exact absurd (by rw [dot3R_zero, Real.sqrt_zero]) hne
      · exact hr
  · intro a r ha h
    have hpos : 0 < dot3R a a := dot3R_pos_of_ne a ha
    have hs : 0 < Real.sqrt (dot3R a a) := Real.sqrt_pos.mpr hpos
    rcases h with ⟨_, hr⟩ | ⟨h0, _⟩
    · subst hr
      refine ⟨rfl, ?_, ?_⟩
      · rw [dot3R_smul]
        rw [div_pow, one_pow, Real.sq_sqrt hpos.le]
        field_simp
      · rw [dot3R_smul, div_pow, one_pow, Real.sq_sqrt hpos.le]
        rw [one_div, inv_mul_cancel₀ hpos.ne.symm, Real.sqrt_one]
    · exact absurd h0 hs.ne.symm

/-- Witness for C10 at the concrete non-zero input `(3,4,0)` (length 5),
together with a direct check of the zero-input branches. -/
theorem normalize3_spec_witness :
    ((⟨3/5, 4/5, 0⟩ : V3R) = (1 / Real.sqrt (dot3R ⟨3, 4, 0⟩ ⟨3, 4, 0⟩)) • ⟨3, 4, 0⟩ ∧
      dot3R ⟨3/5, 4/5, 0⟩ ⟨3/5, 4/5, 0⟩ = 1 ∧
      Real.sqrt (dot3R ⟨3/5, 4/5, 0⟩ ⟨3/5, 4/5, 0⟩) = 1) ∧
    (⟨1, 0, 0⟩ : V3R) = ⟨1, 0, 0⟩ := by
  have h25 : dot3R (⟨3, 4, 0⟩ : V3R) ⟨3, 4, 0⟩ = 25 := by norm_num [dot3R]
  have hs : Real.sqrt (dot3R (⟨3, 4, 0⟩ : V3R) ⟨3, 4, 0⟩) = 5 := by
    rw [h25, show (25 : ℝ) = 5 ^ 2 by norm_num, Real.sqrt_sq (by norm_num)]
  have hn : normalize3R ⟨3, 4, 0⟩ ⟨3/5, 4/5, 0⟩ := by
    left
    refine ⟨by rw [hs]; norm_num, ?_⟩
    rw [hs, smul_V3R_def]
    norm_num
  refine ⟨normalize3_spec.2.2 ⟨3, 4, 0⟩ ⟨3/5, 4/5, 0⟩ (by norm_num) hn, ?_⟩
  exact normalize3_spec.1 ⟨1, 0, 0⟩ (Or.inr ⟨by rw [dot3R_zero, Real.sqrt_zero], rfl⟩)

/-- C5: every vector produced by `RandomSampler::uniformSphere` has unit
length and three non-negative components — the rejection loop draws its
candidates from `[0,1)³` and normalizes the accepted one — and hence
`RenderLightPoint::getRandomRay` only emits light directions in the
non-negative octant. -/
theorem uniformSphere_octant
    (L : RenderLightPoint) (cands : ℕ → V3R) (O R : V3R) (pdf : ℝ) (rad : V3R)
    (hc : ∀ n, inUnitCube01 (cands n))
    (h : L.getRandomRay cands O R pdf rad) :
    Real.sqrt (dot3R R R) = 1 ∧ dot3R R R = 1 ∧ 0 ≤ R.x ∧ 0 ≤ R.y ∧ 0 ≤ R.z := by
  obtain ⟨n, hacc, _, hR⟩ := h.1
  have hsl : 0 < dot3R (cands n) (cands n) := lt_of_lt_of_le (by norm_num) hacc.2
  have hs : 0 < Real.sqrt (dot3R (cands n) (cands n)) := Real.sqrt_pos.mpr hsl
  have hdot : dot3R R R = 1 := by
    rw [hR, dot3R_smul, div_pow, one_pow, Real.sq_sqrt hsl.le, one_div,
      inv_mul_cancel₀ hsl.ne.symm]
  have hk : 0 ≤ 1 / Real.sqrt (dot3R (cands n) (cands n)) := by positivity
  obtain ⟨hx, _, hy, _, hz, _⟩ := hc n
  refine ⟨by rw [hdot, Real.sqrt_one], hdot, ?_, ?_, ?_⟩
  · rw [hR, smul_V3R_def]; exact mul_nonneg hk hx
  · rw [hR, smul_V3R_def]; exact mul_nonneg hk hy
  · rw [hR, smul_V3R_def]; exact mul_nonneg hk hz

/-- Witness for C5: the constant candidate stream `(3/5, 4/5, 0)` is in
`[0,1)³`, is accepted immediately, and the theorem yields the octant
property of the emitted ray direction. -/
theorem uniformSphere_octant_witness :
    Real.sqrt (dot3R ⟨3/5, 4/5, 0⟩ ⟨3/5, 4/5, 0⟩) = 1 ∧
    dot3R ⟨3/5, 4/5, 0⟩ ⟨3/5, 4/5, 0⟩ = 1 ∧
    (0 : ℝ) ≤ (V3R.mk (3/5) (4/5) 0).x ∧
    (0 : ℝ) ≤ (V3R.mk (3/5) (4/5) 0).y ∧
    (0 : ℝ) ≤ (V3R.mk (3/5) (4/5) 0).z := by
  have hone : dot3R (⟨3/5, 4/5, 0⟩ : V3R) ⟨3/5, 4/5, 0⟩ = 1 := by norm_num [dot3R]
  refine uniformSphere_octant ⟨⟨0, 0, 0⟩, ⟨1, 1, 1⟩, 0⟩ (fun _ => ⟨3/5, 4/5, 0⟩)
    ⟨0, 0, 0⟩ ⟨3/5, 4/5, 0⟩ (1 / (4 * Real.pi)) ⟨1, 1, 1⟩
    (fun n => by refine ⟨by norm_num, by norm_num, by norm_num, by norm_num, by norm_num, by norm_num⟩)
    ⟨⟨0, ⟨by rw [hone], by rw [hone]; norm_num⟩, fun m hm => absurd hm (Nat.not_lt_zero m), ?_⟩,
      rfl, rfl, rfl⟩
  rw [hone, Real.sqrt_one, smul_V3R_def]
  norm_num


theorem V3_add_def (a b : V3) : a + b = ⟨a.x + b.x, a.y + b.y, a.z + b.z⟩ := rfl

theorem V3_sub_def (a b : V3) : a - b = ⟨a.x - b.x, a.y - b.y, a.z - b.z⟩ := rfl

theorem V3_neg_def (a : V3) : -a = ⟨-a.x, -a.y, -a.z⟩ := rfl

theorem V3_mul_def (a b : V3) : a * b = ⟨a.x * b.x, a.y * b.y, a.z * b.z⟩ := rfl

theorem V3_smul_def (k : ℚ) (a : V3) : k • a = ⟨k * a.x, k * a.y, k * a.z⟩ := rfl

theorem V3_zero_x : (0 : V3).x = 0 := rfl

theorem V3_zero_y : (0 : V3).y = 0 := rfl

theorem V3_zero_z : (0 : V3).z = 0 := rfl

theorem one_smul_V3 (a : V3) : (1 : ℚ) • a = a := by
  cases a; simp [V3_smul_def]

theorem computePathGo_bounds (step : ℕ → Option PathStepHit) (p : RendererParameters)
    (inv : Bool) (attD : Option ℚ) (sqrtQ : ℚ → ℚ) :
    ∀ (fuel i : ℕ) (prev : BDPTPathPart) (Rad : V3) (rD : ℚ),
      (computePathGo step p inv attD sqrtQ fuel i prev Rad rD).1.length ≤ fuel ∧
      (computePathGo step p inv attD sqrtQ fuel i prev Rad rD).2.1 ≤ fuel := by
  intro fuel
  induction fuel with
  | zero => intro i prev Rad rD; simp [computePathGo]
  | succ f ih =>
    intro i prev Rad rD
    simp only [computePathGo]
    cases step i with
    | none => simp
    | some h =>
      dsimp only
      split_ifs <;>
        refine ⟨?_, ?_⟩ <;>
          first
            | (dsimp only
               rw [List.length_cons]
               exact Nat.add_le_add_right (ih _ _ _ _).1 1)
            | exact Nat.add_le_add_right (ih _ _ _ _).2 1
            | simp

/-- C3: for a configured camera bounce count `k = cameraBouncesN`, every
sub-path that `computePath` builds when called (as `computePaths` does)
with `max_n = k + 1` writes at most `k + 1` `BDPTPathPart` entries and
returns a vertex count `n` with `1 ≤ n ≤ k + 1`, whatever the
intersection outcomes (scene exit, intensity cutoff or max depth). -/
theorem computePath_bounded (step : ℕ → Option PathStepHit) (p : RendererParameters)
    (inv : Bool) (attD : Option ℚ) (sqrtQ : ℚ → ℚ) (O R Rad0 : V3) :
    (computePath step p inv attD sqrtQ O R Rad0 (p.cameraBouncesN + 1)).1.length
        ≤ p.cameraBouncesN + 1 ∧
    1 ≤ (computePath step p inv attD sqrtQ O R Rad0 (p.cameraBouncesN + 1)).2.1 ∧
    (computePath step p inv attD sqrtQ O R Rad0 (p.cameraBouncesN + 1)).2.1
        ≤ p.cameraBouncesN + 1 := by
  have h := computePathGo_bounds step p inv attD sqrtQ (p.cameraBouncesN + 1 - 1) 1
    ⟨R, O, 0, Rad0, ⟨1, 1, 1⟩⟩ Rad0 1
  rw [Nat.add_sub_cancel] at h
  simp only [computePath, Nat.add_sub_cancel]
  refine ⟨?_, Nat.succ_le_succ (Nat.zero_le _), ?_⟩
  · dsimp only
    rw [List.length_cons]
    exact Nat.add_le_add_right h.1 1
  · exact Nat.add_le_add_right h.2 1

/-- C1, amended: in the accumulation stage of `computePaths`, `totalPN`
counts only the background-hit or emissive-surface term (two mutually
exclusive branches), never the accepted light/camera connections, so
`totalPN ≤ 1`, the final scale `totalPN ? 1/totalPN : 1` is always `1`,
and the returned pixel radiance equals the plain accumulated sum. -/
theorem computePaths_normalization (p : RendererParameters) (q : CombineIn) :
    (computePathsCombine p q).totalPN ≤ 1 ∧
    (computePathsCombine p q).radiance = (computePathsCombine p q).radSum := by
  unfold computePathsCombine
  split_ifs <;> simp_all [one_smul_V3]

/-- Counterexample to C1 as stated: a primary ray with one background
contribution and one accepted light/camera connection.  The code's
divisor stays at 1 (the accepted connection does not increment it) and
the returned radiance is the plain sum `(2,1,1)`, while the claimed
normalization (divisor = number of contributing terms = 2) would return
`(1, 1/2, 1/2)`. -/
theorem computePaths_counterexample :
    (computePathsCombine exParams exCombineIn).radiance = ⟨2, 1, 1⟩ ∧
    (computePathsCombine exParams exCombineIn).totalPN = 1 ∧
    acceptedConnN exParams exCombineIn = 1 ∧
    (computePathsCombineClaim exParams exCombineIn).totalPN = 2 ∧
    (computePathsCombineClaim exParams exCombineIn).radiance = ⟨1, 1/2, 1/2⟩ ∧
    (V3.mk 2 1 1) ≠ (V3.mk 1 (1/2) (1/2)) := by
  have hatt : connAttempt exParams exCombineIn ⟨fun _ => ⟨1, 1, 1⟩, none⟩
      (fun _ => exLightPart0) 0 1 = some ⟨1, 1, 1⟩ := by
    norm_num [connAttempt, exParams, exCombineIn, exCamPart0, exCamPart1, exLightPart0,
      normalize3Q, length3Q, distance3Q, dot3, computeLightAttenuation, intensity,
      V3_add_def, V3_sub_def, V3_neg_def, V3_mul_def, V3_smul_def]
  have hpairs : connPairs 1 2 8 = [(0, 1)] := rfl
  have hcpE : exCombineIn.cpExit = true := rfl
  have hbg : exCombineIn.bg = some (fun _ => (⟨1, 0, 0⟩ : V3)) := rfl
  have hlen : exCombineIn.cpLen = 2 := rfl
  have hrad0 : exCombineIn.rad0 = 0 := rfl
  have hlp : exCombineIn.lp = some (⟨fun _ => ⟨1, 1, 1⟩, none⟩, 1, fun _ => exLightPart0) := rfl
  have hcp1 : exCombineIn.cp 1 = exCamPart1 := rfl
  have hmax : exParams.maxPathLength = 8 := rfl
  norm_num [computePathsCombine, computePathsCombineClaim, acceptedConnN,
    hpairs, hatt, hcpE, hbg, hlen, hrad0, hlp, hcp1, hmax, exCamPart1, intensity, fEps,
    V3_add_def, V3_sub_def, V3_neg_def, V3_mul_def, V3_smul_def,
    V3_zero_x, V3_zero_y, V3_zero_z]

theorem maxAbsInVector_ge_th (v : V3) (th : ℚ) : th ≤ maxAbsInVector v th := by
  unfold maxAbsInVector
  dsimp only
  split_ifs <;> linarith

theorem maskedAdvance_pos (org dir : V3) (t : ℚ) : 0 < maskedAdvance org dir t := by
  unfold maskedAdvance
  dsimp only
  have h1 : (1 : ℚ) ≤ maxAbsInVector (org + t • dir) 1 := maxAbsInVector_ge_th _ 1
  have h2 : (1 : ℚ) ≤ if maxAbsInVector (org + t • dir) 1 > t then
      maxAbsInVector (org + t • dir) 1 else t := by
    split_ifs with h
    · exact h1
    · linarith [not_lt.mp h]
  have : (0 : ℚ) < epsAcc * fEps := by norm_num [epsAcc, fEps]
  nlinarith

theorem sceneIntersectGo_queries (hits : List RHit) (org dir : V3) (t1 : ℚ) :
    ∀ (fuel : ℕ) (tnear tfar : ℚ),
      (sceneIntersectGo hits org dir t1 fuel tnear tfar).2 ≤ fuel := by
  intro fuel
  induction fuel with
  | zero => intro tnear tfar; simp [sceneIntersectGo]
  | succ f ih =>
    intro tnear tfar
    simp only [sceneIntersectGo]
    cases firstHit hits tnear tfar with
    | none => exact Nat.succ_le_succ (Nat.zero_le _)
    | some h =>
      dsimp only
      split_ifs
      · exact Nat.succ_le_succ (Nat.zero_le _)
      · exact Nat.succ_le_succ (Nat.zero_le _)
      · exact Nat.add_le_add_right (ih _ _) 1

theorem sceneIntersectGo_succ (hits : List RHit) (org dir : V3) (t1 : ℚ)
    (itr : ℕ) (tnear tfar : ℚ) :
    sceneIntersectGo hits org dir t1 (itr + 1) tnear tfar =
      match firstHit hits tnear tfar with
      | none => (none, 1)
      | some h =>
        if h.masked = false then (some h, 1)
        else
          let tnear' := h.t + maskedAdvance org dir h.t
          if t1 ≤ tnear' then (none, 1)
          else
            let rest := sceneIntersectGo hits org dir t1 itr tnear' t1
            (rest.1, rest.2 + 1) := rfl

/-- C2: when the first reported intersection of a ray is on a masked
material and the next one (past the epsilon advance of `tnear`) is on a
non-masked material within the original window, `sceneIntersect` returns
that non-masked hit's surface point; and every call issues at most 10
intersection queries before giving up. -/
theorem sceneIntersect_maskedSkip :
    (∀ (org dir : V3) (tnear0 tfar0 : ℚ) (h1 h2 : RHit) (rest : List RHit),
      tnear0 ≤ h1.t → h1.t ≤ tfar0 → h1.masked = true → h2.masked = false →
      h1.t + maskedAdvance org dir h1.t < h2.t → h2.t ≤ tfar0 →
      (sceneIntersect (h1 :: h2 :: rest) org dir tnear0 tfar0).1 = some h2) ∧
    (∀ (hits : List RHit) (org dir : V3) (tnear tfar : ℚ),
      (sceneIntersect hits org dir tnear tfar).2 ≤ 10) := by
  constructor
  · intro org dir tnear0 tfar0 h1 h2 rest ha hb hm1 hm2 hadv hc
    have hadvpos := maskedAdvance_pos org dir h1.t
    have hf1 : firstHit (h1 :: h2 :: rest) tnear0 tfar0 = some h1 := by
      rw [firstHit]
      exact List.find?_cons_of_pos _ (by simp [ha, hb])
    have hf2 : firstHit (h1 :: h2 :: rest) (h1.t + maskedAdvance org dir h1.t) tfar0
        = some h2 := by
      rw [firstHit, List.find?_cons_of_neg _ (by simp; intro hle; linarith)]
      exact List.find?_cons_of_pos _ (by simp [hc]; linarith)
    unfold sceneIntersect
    rw [show (10 : ℕ) = 9 + 1 from rfl, sceneIntersectGo_succ, hf1]
    dsimp only
    rw [if_neg (by simp [hm1]), if_neg (by push_neg; linarith)]
    rw [show (9 : ℕ) = 8 + 1 from rfl, sceneIntersectGo_succ, hf2]
    dsimp only
    rw [if_pos hm2]
  · intro hits org dir tnear tfar
    exact sceneIntersectGo_queries hits org dir tfar 10 tnear tfar

/-- Witness for C2: a masked hit at `t = 1` followed by an opaque hit at
`t = 2` on a ray from the origin along `+z`; the opaque hit is returned. -/
theorem sceneIntersect_maskedSkip_witness :
    (sceneIntersect [⟨1, true, 0⟩, ⟨2, false, 1⟩] ⟨0, 0, 0⟩ ⟨0, 0, 1⟩ 0 1000).1 =
      some ⟨2, false, 1⟩ := by
  refine sceneIntersect_maskedSkip.1 ⟨0, 0, 0⟩ ⟨0, 0, 1⟩ 0 1000 ⟨1, true, 0⟩ ⟨2, false, 1⟩ []
    (by norm_num) (by norm_num) rfl rfl ?_ (by norm_num)
  norm_num [maskedAdvance, maxAbsInVector, epsAcc, fEps,
    V3_add_def, V3_smul_def]

/-- C8: every scene setter (`setMesh`, `setInstance`, `setMaterial`,
`setLight`, `setTexture`) is a complete no-op for an out-of-range index
(negative, or at/above the corresponding allocated count — for
`setMaterial` that bound is `m_iMaterialsN - 1`, the caller-visible
material count), and an in-range call rewrites exactly the addressed
slot, leaving every other slot and every other scene component
unchanged. -/
theorem scene_setters_frame (s : RenderScene) :
    (∀ (id vertN facesN matId : ℤ) (hv hn ht : Bool),
      id < 0 ∨ (s.meshes.length : ℤ) ≤ id → s.setMesh id vertN facesN matId hv hn ht = s) ∧
    (∀ (id vertN facesN matId : ℤ) (hv hn ht : Bool),
      0 ≤ id → id < (s.meshes.length : ℤ) →
      (s.setMesh id vertN facesN matId hv hn ht =
          { s with meshes := (s.meshes.set id.toNat
              (RenderMesh.allocateSet id vertN facesN matId hv hn ht)) } ∧
        (s.setMesh id vertN facesN matId hv hn ht).meshes[id.toNat]? =
          some (RenderMesh.allocateSet id vertN facesN matId hv hn ht) ∧
        ∀ j, j ≠ id.toNat →
          (s.setMesh id vertN facesN matId hv hn ht).meshes[j]? = s.meshes[j]?)) ∧
    (∀ (id : ℤ) (tr : List ℚ) (mid : ℤ),
      id < 0 ∨ (s.instances.length : ℤ) ≤ id → s.setInstance id tr mid = s) ∧
    (∀ (id : ℤ) (tr : List ℚ) (mid : ℤ),
      0 ≤ id → id < (s.instances.length : ℤ) →
      (s.setInstance id tr mid =
          { s with instances := (s.instances.set id.toNat ⟨id, mid, tr⟩) } ∧
        (s.setInstance id tr mid).instances[id.toNat]? = some ⟨id, mid, tr⟩ ∧
        ∀ j, j ≠ id.toNat → (s.setInstance id tr mid).instances[j]? = s.instances[j]?)) ∧
    (∀ (id : ℤ) (m : Option RMaterial),
      id < 0 ∨ s.materialsN - 1 ≤ id → s.setMaterial id m = s) ∧
    (∀ (id : ℤ) (m : Option RMaterial),
      0 ≤ id → id < s.materialsN - 1 →
      (s.setMaterial id m = { s with materials := (s.materials.set id.toNat m) } ∧
        (s.setMaterial id m).materials[id.toNat]? = some m ∧
        ∀ j, j ≠ id.toNat → (s.setMaterial id m).materials[j]? = s.materials[j]?)) ∧
    (∀ (id : ℤ) (l : Option RenderLight),
      id < 0 ∨ (s.lights.length : ℤ) ≤ id → s.setLight id l = s) ∧
    (∀ (id : ℤ) (l : Option RenderLight),
      0 ≤ id → id < (s.lights.length : ℤ) →
      (s.setLight id l = { s with lights := (s.lights.set id.toNat l) } ∧
        (s.setLight id l).lights[id.toNat]? = some l ∧
        ∀ j, j ≠ id.toNat → (s.setLight id l).lights[j]? = s.lights[j]?)) ∧
    (∀ (id tw th : ℤ) (dat : ℕ),
      id < 0 ∨ (s.textures.length : ℤ) ≤ id → s.setTexture id tw th dat = s) ∧
    (∀ (id tw th : ℤ) (dat : ℕ),
      0 ≤ id → id < (s.textures.length : ℤ) →
      (s.setTexture id tw th dat =
          { s with textures := (s.textures.set id.toNat ⟨tw, th, dat⟩) } ∧
        (s.setTexture id tw th dat).textures[id.toNat]? = some ⟨tw, th, dat⟩ ∧
        ∀ j, j ≠ id.toNat → (s.setTexture id tw th dat).textures[j]? = s.textures[j]?)) := by
  refine ⟨?_, ?_, ?_, ?_, ?_, ?_, ?_, ?_, ?_, ?_⟩
  · intro id vertN facesN matId hv hn ht h
    rw [RenderScene.setMesh, if_pos h]
  · intro id vertN facesN matId hv hn ht h0 hlen
    have hno : ¬(id < 0 ∨ (s.meshes.length : ℤ) ≤ id) := by push_neg; exact ⟨h0, hlen⟩
    have hlt : id.toNat < s.meshes.length := by omega
    rw [RenderScene.setMesh, if_neg hno]
    refine ⟨rfl, by simp [List.getElem?_set_self', hlt], fun j hj => ?_⟩
    exact List.getElem?_set_ne (Ne.symm hj)
  · intro id tr mid h
    rw [RenderScene.setInstance, if_pos h]
  · intro id tr mid h0 hlen
    have hno : ¬(id < 0 ∨ (s.instances.length : ℤ) ≤ id) := by push_neg; exact ⟨h0, hlen⟩
    have hlt : id.toNat < s.instances.length := by omega
    rw [RenderScene.setInstance, if_neg hno]
    refine ⟨rfl, by simp [List.getElem?_set_self', hlt], fun j hj => ?_⟩
    exact List.getElem?_set_ne (Ne.symm hj)
  · intro id m h
    rw [RenderScene.setMaterial, if_pos h]
  · intro id m h0 hlen
    have hno : ¬(id < 0 ∨ s.materialsN - 1 ≤ id) := by push_neg; exact ⟨h0, hlen⟩
    have hlt : id.toNat < s.materials.length := by
      have := hlen
      unfold RenderScene.materialsN at this
      omega
    rw [RenderScene.setMaterial, if_neg hno]
    refine ⟨rfl, by simp [List.getElem?_set_self', hlt], fun j hj => ?_⟩
    exact List.getElem?_set_ne (Ne.symm hj)
  · intro id l h
    rw [RenderScene.setLight, if_pos h]
  · intro id l h0 hlen
    have hno : ¬(id < 0 ∨ (s.lights.length : ℤ) ≤ id) := by push_neg; exact ⟨h0, hlen⟩
    have hlt : id.toNat < s.lights.length := by omega
    rw [RenderScene.setLight, if_neg hno]
    refine ⟨rfl, by simp [List.getElem?_set_self', hlt], fun j hj => ?_⟩
    exact List.getElem?_set_ne (Ne.symm hj)
  · intro id tw th dat h
    rw [RenderScene.setTexture, if_pos h]
  · intro id tw th dat h0 hlen
    have hno : ¬(id < 0 ∨ (s.textures.length : ℤ) ≤ id) := by push_neg; exact ⟨h0, hlen⟩
    have hlt : id.toNat < s.textures.length := by omega
    rw [RenderScene.setTexture, if_neg hno]
    refine ⟨rfl, by simp [List.getElem?_set_self', hlt], fun j hj => ?_⟩
    exact List.getElem?_set_ne (Ne.symm hj)

/-- Witness for C8: on a freshly allocated scene with one slot per
entity kind, `setMaterial 5` and `setLight (-1)` are no-ops and an
in-range `setLight 0` writes slot 0. -/
theorem scene_setters_frame_witness :
    (RenderScene.allocate 1 1 1 1 1 true).setMaterial 5 (some missingMaterial) =
        RenderScene.allocate 1 1 1 1 1 true ∧
    (RenderScene.allocate 1 1 1 1 1 true).setLight (-1) (some ⟨2, 7⟩) =
        RenderScene.allocate 1 1 1 1 1 true ∧
    ((RenderScene.allocate 1 1 1 1 1 true).setLight 0 (some ⟨2, 7⟩)).lights[0]? =
        some (some ⟨2, 7⟩) := by
  have hm : (RenderScene.allocate 1 1 1 1 1 true).materialsN - 1 ≤ 5 := by
    norm_num [RenderScene.allocate, RenderScene.materialsN]
  have hl : ((RenderScene.allocate 1 1 1 1 1 true).lights.length : ℤ) = 1 := by
    norm_num [RenderScene.allocate]
  refine ⟨(scene_setters_frame _).2.2.2.2.1 5 _ (Or.inr hm),
    (scene_setters_frame _).2.2.2.2.2.2.1 (-1) _ (Or.inl (by norm_num)),
    ((scene_setters_frame _).2.2.2.2.2.2.2.1 0 (some ⟨2, 7⟩) (by norm_num)
      (by rw [hl]; norm_num)).2.1⟩

theorem commitScene_materials (s : RenderScene) (r : RenderScene × Bool × List LogEntry)
    (hr : s.commitScene = some r) : r.1.materials = s.materials := by
  unfold RenderScene.commitScene RenderScene.buildEmbreeScene at hr
  dsimp only at hr
  split_ifs at hr <;>
    first
      | exact Option.noConfusion hr
      | (injection hr with hr1; subst hr1; rfl)

/-- C6: after `allocate(_, _, matN, _, _)`, the reserved slot at index
`matN` holds the diffuse missing-material object, and this is preserved
by every public setter and by `commitScene` (in particular `setMaterial`
rejects every index at or above `matN`), so the slot can never be
overwritten before the scene is freed. -/
theorem missing_material_invariant (matN : ℕ) (s : RenderScene)
    (h : SceneReach matN s) :
    s.materials.length = matN + 2 ∧ s.materials[matN]? = some (some missingMaterial) := by
  induction h with
  | alloc meshN instN textN ligN dev =>
    refine ⟨by simp [RenderScene.allocate], ?_⟩
    have hl : matN < (List.replicate (matN + 2) (none : Option RMaterial)).length := by simp
    simp [RenderScene.allocate, List.getElem?_set_self', hl]
  | setMesh s a b c d e f g hs ih =>
    unfold RenderScene.setMesh; split_ifs <;> exact ih
  | setInstance s a t b hs ih =>
    unfold RenderScene.setInstance; split_ifs <;> exact ih
  | setMaterial s a m hs ih =>
    unfold RenderScene.setMaterial
    split_ifs with hcond
    · exact ih
    · push_neg at hcond
      have h2 : a < (s.materials.length : ℤ) - 1 - 1 := by
        have := hcond.2
        unfold RenderScene.materialsN at this
        omega
      have hne : a.toNat ≠ matN := by
        have hlen := ih.1
        omega
      exact ⟨by simpa using ih.1, by rw [List.getElem?_set_ne hne]; exact ih.2⟩
  | setLight s a l hs ih =>
    unfold RenderScene.setLight; split_ifs <;> exact ih
  | setTexture s a b c d hs ih =>
    unfold RenderScene.setTexture; split_ifs <;> exact ih
  | commit s r hs hcr ih =>
    rw [commitScene_materials s r hcr]
    exact ih

/-- Witness for C6 at `matN = 1`: after an allocate followed by a
`setMaterial 0` and a (non-crashing) `commitScene`, slot 1 still holds
the missing material. -/
theorem missing_material_invariant_witness :
    (Option.getD
        ((RenderScene.allocate 0 0 1 0 0 true).setMaterial 0
          (some (RMaterial.diffuse 1 1 1 1))).commitScene
        (RenderScene.allocate 0 0 1 0 0 true, false, [])).1.materials[1]? =
      some (some missingMaterial) := by
  have hr : ((RenderScene.allocate 0 0 1 0 0 true).setMaterial 0
        (some (RMaterial.diffuse 1 1 1 1))).commitScene =
      some (Option.getD
        ((RenderScene.allocate 0 0 1 0 0 true).setMaterial 0
          (some (RMaterial.diffuse 1 1 1 1))).commitScene
        (RenderScene.allocate 0 0 1 0 0 true, false, [])) := by decide
  exact (missing_material_invariant 1 _
    (SceneReach.commit _ _
      (SceneReach.setMaterial _ _ _ (SceneReach.alloc 0 0 0 0 true)) hr)).2

theorem commitScene_traceReady (s : RenderScene) (r : RenderScene × Bool × List LogEntry)
    (hr : s.commitScene = some r) (h : r.2.1 = true) : r.1.traceReady = true := by
  unfold RenderScene.commitScene RenderScene.buildEmbreeScene at hr
  dsimp only at hr
  split_ifs at hr <;>
    first
      | exact Option.noConfusion hr
      | (injection hr with hr1; subst hr1; simp_all)

/-- C9, amended: after a successful `commitScene`, a second call with no
intervening mutation is a guarded no-op — it returns `true`, the same
scene state, and appends nothing to the log.  (After a failed commit the
second call returns the same failure value but its log output can
differ, see the counterexample.) -/
theorem commitScene_idempotent_success (s : RenderScene)
    (r : RenderScene × Bool × List LogEntry)
    (hr : s.commitScene = some r) (h : r.2.1 = true) :
    r.1.commitScene = some (r.1, true, []) := by
  have ht := commitScene_traceReady s r hr h
  rw [RenderScene.commitScene, if_pos ht]

/-- Witness for C9: the one-valid-mesh one-instance scene commits
successfully, and the second call returns the same state with an empty
log. -/
theorem commitScene_idempotent_success_witness :
    ((exSceneOk.commitScene).getD (exSceneOk, false, [])).1.commitScene =
      some (((exSceneOk.commitScene).getD (exSceneOk, false, [])).1, true, []) :=
  commitScene_idempotent_success exSceneOk
    ((exSceneOk.commitScene).getD (exSceneOk, false, [])) (by decide) (by decide)

/-- Counterexample to C9 as stated: on `exSceneFail` the first commit
fails (all instances invalid) after logging the undefined-material
entry, the mesh-inconsistency entry and the invalid-instance entry; the
second call returns the same failure value but logs only the latter two
(the index was already substituted), so the log output is not
identical. -/
theorem commitScene_log_counterexample :
    Option.map (fun r => r.2.1) exSceneFail.commitScene = some false ∧
    Option.bind exSceneFail.commitScene
      (fun r => Option.map (fun q => q.2.1) r.1.commitScene) = some false ∧
    Option.map (fun r => r.2.2) exSceneFail.commitScene =
      some [LogEntry.undefinedMaterial 0 0, LogEntry.inconsistentMesh 0,
            LogEntry.invalidInstances 1 1] ∧
    Option.bind exSceneFail.commitScene
      (fun r => Option.map (fun q => q.2.2) r.1.commitScene) =
      some [LogEntry.inconsistentMesh 0, LogEntry.invalidInstances 1 1] ∧
    Option.map (fun r => r.2.2) exSceneFail.commitScene ≠
      Option.bind exSceneFail.commitScene
        (fun r => Option.map (fun q => q.2.2) r.1.commitScene) := by
  decide

theorem resolveMeshMaterial_unresolved (mats : List (Option RMaterial)) (mN : ℤ)
    (i : ℕ) (m : RenderMesh)
    (h : ¬(0 ≤ m.matId ∧ m.matId < mN ∧ mats.getD m.matId.toNat none ≠ none)) :
    (resolveMeshMaterial mats mN i m).1.matId = mN - 1 := by
  unfold resolveMeshMaterial
  by_cases hir : 0 ≤ m.matId ∧ m.matId < mN
  · rw [if_pos hir]
    cases hget : mats.getD m.matId.toNat none with
    | none => simp
    | some a => exact absurd ⟨hir.1, hir.2, by rw [hget]; simp⟩ h
  · rw [if_neg hir]

theorem resolveMeshMaterial_log (mats : List (Option RMaterial)) (mN : ℤ)
    (i : ℕ) (m : RenderMesh) :
    (resolveMeshMaterial mats mN i m).2 =
      if 0 ≤ m.matId ∧ m.matId < mN ∧ mats.getD m.matId.toNat none = none then
        [LogEntry.undefinedMaterial i m.matId] else [] := by
  unfold resolveMeshMaterial
  by_cases hir : 0 ≤ m.matId ∧ m.matId < mN
  · rw [if_pos hir]
    cases hget : mats.getD m.matId.toNat none with
    | none => simp [hir, hget]
    | some a => simp [hir, hget]
  · rw [if_neg hir, if_neg (by tauto)]

theorem commitMeshStep_undef_mem (mats : List (Option RMaterial)) (mN : ℤ)
    (i : ℕ) (m : RenderMesh) (j : ℕ) (mid : ℤ) :
    LogEntry.undefinedMaterial j mid ∈ (commitMeshStep mats mN i m).2 ↔
      LogEntry.undefinedMaterial j mid ∈ (resolveMeshMaterial mats mN i m).2 := by
  unfold commitMeshStep
  dsimp only
  rw [List.mem_append]
  constructor
  · rintro (h | h)
    · exact h
    · split_ifs at h <;> simp_all
  · exact Or.inl

theorem mem_commitSceneMeshLog (s : RenderScene) (e : LogEntry) :
    e ∈ commitSceneMeshLog s ↔
      ∃ i m, s.meshes[i]? = some m ∧
        e ∈ (commitMeshStep s.materials s.materialsN i m).2 := by
  unfold commitSceneMeshLog commitSceneMeshResults
  rw [List.mem_flatten]
  constructor
  · rintro ⟨l, hl, he⟩
    rw [List.mem_map] at hl
    obtain ⟨r, hr, rfl⟩ := hl
    rw [List.mem_map] at hr
    obtain ⟨p, hp, rfl⟩ := hr
    obtain ⟨i, m⟩ := p
    exact ⟨i, m, List.mk_mem_enum_iff_getElem?.mp hp, he⟩
  · rintro ⟨i, m, hm, he⟩
    refine ⟨(commitMeshStep s.materials s.materialsN i m).2, ?_, he⟩
    rw [List.mem_map]
    refine ⟨(commitMeshStep s.materials s.materialsN i m), ?_, rfl⟩
    rw [List.mem_map]
    exact ⟨(i, m), List.mk_mem_enum_iff_getElem?.mpr hm, rfl⟩

theorem commitScene_log_split (s : RenderScene) (r : RenderScene × Bool × List LogEntry)
    (h : s.traceReady = false) (hr : s.commitScene = some r) :
    ∃ rest, r.2.2 = commitSceneMeshLog s ++ rest ∧
      ∀ (j : ℕ) (mid : ℤ), LogEntry.undefinedMaterial j mid ∉ rest := by
  unfold RenderScene.commitScene RenderScene.buildEmbreeScene at hr
  rw [if_neg (by simp [h])] at hr
  dsimp only at hr
  split_ifs at hr <;>
    first
      | exact Option.noConfusion hr
      | (injection hr with hr1; subst hr1;
         first
           | exact ⟨_, rfl, by intro j mid hmem; simp_all⟩
           | exact ⟨_, by rw [List.append_assoc], by intro j mid hmem; simp_all⟩)

/-- C7, amended: during `commitScene`, every mesh whose material
reference is unresolved (an out-of-range index, or an in-range index
whose slot is null) has its material index substituted with the
missing-material slot index by the resolution stage, but the
undefined-material log entry is appended only in the in-range-null case;
an out-of-range reference is substituted silently. -/
theorem commit_undefined_material (s : RenderScene) (i : ℕ) (m : RenderMesh)
    (r : RenderScene × Bool × List LogEntry)
    (htr : s.traceReady = false) (hr : s.commitScene = some r)
    (hm : s.meshes[i]? = some m)
    (hun : ¬(0 ≤ m.matId ∧ m.matId < s.materialsN ∧
             s.materials.getD m.matId.toNat none ≠ none)) :
    (resolveMeshMaterial s.materials s.materialsN i m).1.matId = s.materialsN - 1 ∧
    (hasUndefEntry r.2.2 i ↔
      (0 ≤ m.matId ∧ m.matId < s.materialsN ∧
        s.materials.getD m.matId.toNat none = none)) := by
  obtain ⟨rest, hsplit, hrest⟩ := commitScene_log_split s r htr hr
  refine ⟨resolveMeshMaterial_unresolved _ _ _ _ hun, ?_⟩
  constructor
  · rintro ⟨mid, hmem⟩
    rw [hsplit, List.mem_append] at hmem
    rcases hmem with hmem | hmem
    · rw [mem_commitSceneMeshLog] at hmem
      obtain ⟨i', m', hm', he⟩ := hmem
      rw [commitMeshStep_undef_mem, resolveMeshMaterial_log] at he
      split_ifs at he with hcond
      · simp only [List.mem_singleton, LogEntry.undefinedMaterial.injEq] at he
        obtain ⟨rfl, rfl⟩ := he
        rw [hm] at hm'
        cases hm'
        exact hcond
      · simp at he
    · exact absurd hmem (hrest i mid)
  · intro hcond
    refine ⟨m.matId, ?_⟩
    rw [hsplit, List.mem_append]
    left
    rw [mem_commitSceneMeshLog]
    refine ⟨i, m, hm, ?_⟩
    rw [commitMeshStep_undef_mem, resolveMeshMaterial_log, if_pos hcond]
    simp

/-- Witness for C7 (amended) at `exSceneFail`: its mesh 0 references the
in-range null material slot 0, so the index is substituted and the
undefined-material entry is logged. -/
theorem commit_undefined_material_witness :
    (resolveMeshMaterial exSceneFail.materials exSceneFail.materialsN 0
        (RenderMesh.allocateSet 0 0 0 0 false false false)).1.matId =
      exSceneFail.materialsN - 1 ∧
    hasUndefEntry ((exSceneFail.commitScene).getD (exSceneFail, false, [])).2.2 0 := by
  have h := commit_undefined_material exSceneFail 0
    (RenderMesh.allocateSet 0 0 0 0 false false false)
    ((exSceneFail.commitScene).getD (exSceneFail, false, []))
    (by decide) (by decide) (by decide) (by decide)
  exact ⟨h.1, h.2.mpr (by decide)⟩

/-- Counterexample to C7 as stated: `exSceneOutOfRange`'s only mesh
references the out-of-range material index `5` (with `m_iMaterialsN = 1`
and no null slot below it, so the commit runs to completion without the
injection loop dereferencing a null material); after `commitScene` the
index has been substituted with the missing-material slot and the commit
succeeded, yet the log is empty — no undefined-material entry was
appended for this unresolved mesh. -/
theorem commit_undefined_material_counterexample :
    (exSceneOutOfRange.meshes.getD 0 RenderMesh.reset).matId = 5 ∧
    exSceneOutOfRange.materialsN = 1 ∧
    materialsInjectionCrash exSceneOutOfRange = false ∧
    Option.map (fun r => (r.1.meshes.getD 0 RenderMesh.reset).matId)
      exSceneOutOfRange.commitScene = some (exSceneOutOfRange.materialsN - 1) ∧
    Option.map (fun r => r.2.1) exSceneOutOfRange.commitScene = some true ∧
    Option.map (fun r => r.2.2) exSceneOutOfRange.commitScene = some [] := by
  decide

theorem prefixSums_length (a : ℚ) (l : List ℚ) : (prefixSums a l).length = l.length := by
  induction l generalizing a with
  | nil => rfl
  | cons x xs ih => simp [prefixSums, ih]

theorem prefixSums_getD (a : ℚ) (l : List ℚ) :
    ∀ k, k < l.length → (prefixSums a l).getD k 0 = a + (l.take (k + 1)).sum := by
  induction l generalizing a with
  | nil => intro k h; simp at h
  | cons x xs ih =>
    intro k hk
    cases k with
    | zero => simp [prefixSums]
    | succ k' =>
      simp only [prefixSums, List.getD_cons_succ, List.take_succ_cons, List.sum_cons]
      rw [ih (a + x) k' (by simpa using hk)]
      ring

theorem take_sum_succ (l : List ℚ) :
    ∀ k, k < l.length → (l.take (k + 1)).sum = (l.take k).sum + l.getD k 0 := by
  induction l with
  | nil => intro k h; simp at h
  | cons x xs ih =>
    intro k hk
    cases k with
    | zero => simp
    | succ k' =>
      simp only [List.take_succ_cons, List.sum_cons, List.getD_cons_succ]
      rw [ih k' (by simpa using hk)]
      ring

theorem take_sum_mono (l : List ℚ) (hp : ∀ p ∈ l, 0 < p) :
    ∀ m n, m ≤ n → (l.take m).sum ≤ (l.take n).sum := by
  intro m n hmn
  induction n with
  | zero => simp_all
  | succ n' ih =>
    rcases Nat.eq_or_lt_of_le hmn with rfl | hm
    · exact le_refl _
    · have h1 := ih (by omega)
      rcases Nat.lt_or_ge n' l.length with hlt | hge
      · have hpos : 0 < l.getD n' 0 := by
          apply hp
          rw [List.getD_eq_getElem l 0 hlt]
          exact List.getElem_mem hlt
        rw [take_sum_succ l n' hlt]
        linarith
      · rw [List.take_of_length_le hge] at h1
        rw [List.take_of_length_le (show l.length ≤ n' + 1 by omega)]
        exact h1

theorem prefixSums_mono (l : List ℚ) (hp : ∀ p ∈ l, 0 < p) :
    ∀ i j, i ≤ j → j < l.length →
      (prefixSums 0 l).getD i 0 ≤ (prefixSums 0 l).getD j 0 := by
  intro i j hij hj
  rw [prefixSums_getD 0 l i (lt_of_le_of_lt hij hj), prefixSums_getD 0 l j hj]
  simpa using take_sum_mono l hp (i + 1) (j + 1) (by omega)

theorem bsearchGo_least (D : List ℚ) (d : ℚ) :
    ∀ (f L R : ℕ), R - L ≤ f → L ≤ R → d ≤ D.getD R 0 →
      (∀ i j, L ≤ i → i ≤ j → j ≤ R → D.getD i 0 ≤ D.getD j 0) →
      (L ≤ bsearchGo D d f L R ∧ bsearchGo D d f L R ≤ R ∧
        d ≤ D.getD (bsearchGo D d f L R) 0 ∧
        ∀ j, L ≤ j → j < bsearchGo D d f L R → ¬d ≤ D.getD j 0) := by
  intro f
  induction f with
  | zero =>
    intro L R hf hLR hdR _
    have hhalf : (L + R) / 2 = L := by omega
    rw [bsearchGo, hhalf]
    refine ⟨le_refl _, hLR, ?_, fun j hj1 hj2 => absurd (lt_of_le_of_lt hj1 hj2) (lt_irrefl _)⟩
    rwa [show R = L by omega] at hdR
  | succ f ih =>
    intro L R hf hLR hdR hmono
    rw [bsearchGo]
    by_cases hLR' : L < R
    · rw [if_pos hLR']
      have hCL : L ≤ (L + R) / 2 := by omega
      have hCR : (L + R) / 2 < R := by omega
      by_cases hdC : d ≤ D.getD ((L + R) / 2) 0
      · rw [if_pos hdC]
        have := ih L ((L + R) / 2) (by omega) hCL hdC
          (fun i j h1 h2 h3 => hmono i j h1 h2 (by omega))
        exact ⟨this.1, le_trans this.2.1 (by omega), this.2.2.1, this.2.2.2⟩
      · rw [if_neg hdC]
        have := ih ((L + R) / 2 + 1) R (by omega) (by omega) hdR
          (fun i j h1 h2 h3 => hmono i j (by omega) h2 h3)
        refine ⟨by omega, this.2.1, this.2.2.1, ?_⟩
        intro j h1 h2
        rcases Nat.lt_or_ge j ((L + R) / 2 + 1) with hj | hj
        · intro hcon
          exact hdC (le_trans hcon (hmono j ((L + R) / 2) h1 (by omega) (by omega)))
        · exact this.2.2.2 j hj h2
    · rw [if_neg hLR']
      have hhalf : (L + R) / 2 = L := by omega
      rw [hhalf]
      refine ⟨le_refl _, hLR, ?_, fun j hj1 hj2 => absurd (lt_of_le_of_lt hj1 hj2) (lt_irrefl _)⟩
      rwa [show R = L by omega] at hdR

theorem leastK_eq (d : ℚ) :
    ∀ (D : List ℚ) (k : ℕ), k < D.length → d ≤ D.getD k 0 →
      (∀ j, j < k → ¬d ≤ D.getD j 0) → leastK d D = k := by
  intro D
  induction D with
  | nil => intro k hk; simp at hk
  | cons x xs ih =>
    intro k hk hdk hmin
    cases k with
    | zero =>
      rw [leastK, if_pos (by simpa using hdk)]
    | succ k' =>
      have hx : ¬d ≤ x := by simpa using hmin 0 (Nat.succ_pos _)
      rw [leastK, if_neg hx]
      rw [ih k' (by simpa using hk) (by simpa using hdk)
        (fun j hj => by simpa using hmin (j + 1) (by omega))]

theorem leastK_spec (d : ℚ) :
    ∀ (D : List ℚ), (∃ k, k < D.length ∧ d ≤ D.getD k 0) →
      (leastK d D < D.length ∧ d ≤ D.getD (leastK d D) 0 ∧
        ∀ j, j < leastK d D → ¬d ≤ D.getD j 0) := by
  intro D
  induction D with
  | nil => rintro ⟨k, hk, _⟩; simp at hk
  | cons x xs ih =>
    rintro ⟨k, hk, hdk⟩
    by_cases hx : d ≤ x
    · rw [leastK, if_pos hx]
      exact ⟨by simp, by simpa using hx, fun j hj => absurd hj (Nat.not_lt_zero j)⟩
    · rw [leastK, if_neg hx]
      have hk' : ∃ k', k' < xs.length ∧ d ≤ xs.getD k' 0 := by
        cases k with
        | zero => exact absurd (by simpa using hdk) hx
        | succ k'' => exact ⟨k'', by simpa using hk, by simpa using hdk⟩
      have := ih hk'
      refine ⟨by simpa using this.1, by simpa using this.2.1, ?_⟩
      intro j hj
      cases j with
      | zero => simpa using hx
      | succ j' => simpa using this.2.2 j' (by omega)

theorem set_append_length {α : Type} (y x : α) :
    ∀ (pre ys : List α), (pre ++ y :: ys).set pre.length x = pre ++ x :: ys := by
  intro pre
  induction pre with
  | nil => intro ys; rfl
  | cons a t ih =>
    intro ys
    show a :: (t ++ y :: ys).set t.length x = a :: (t ++ x :: ys)
    exact congrArg (List.cons a) (ih ys)

theorem fillDistances_go (l : List ℚ) :
    ∀ (pre d : List ℚ) (n : ℤ) (maxD : ℚ), d.length = l.length →
      (List.enumFrom pre.length l).foldl
          (fun (T : DistanceRandom) (p : ℕ × ℚ) => T.setDistance (p.1 : ℤ) p.2)
          (⟨n, pre ++ d, maxD⟩ : DistanceRandom) =
        (⟨n, pre ++ l, maxD⟩ : DistanceRandom) := by
  induction l with
  | nil =>
    intro pre d n maxD hlen
    cases d with
    | nil => rfl
    | cons y ys => simp at hlen
  | cons x xs ih =>
    intro pre d n maxD hlen
    cases d with
    | nil => simp at hlen
    | cons y ys =>
      rw [show List.enumFrom pre.length (x :: xs) =
          (pre.length, x) :: List.enumFrom (pre.length + 1) xs from rfl]
      rw [List.foldl_cons]
      have hset : DistanceRandom.setDistance ⟨n, pre ++ y :: ys, maxD⟩ (pre.length : ℤ) x =
          ⟨n, (pre ++ [x]) ++ ys, maxD⟩ := by
        unfold DistanceRandom.setDistance
        simp only [Int.toNat_natCast, set_append_length]
        simp
      rw [hset]
      have hlen' : pre.length + 1 = (pre ++ [x]).length := by simp
      rw [hlen']
      rw [ih (pre ++ [x]) ys n maxD (by simpa using hlen)]
      simp

theorem fillDistances_eq (S : DistanceRandom) (powers : List ℚ) :
    fillDistances (S.setCount (powers.length : ℤ)) powers =
      ⟨(powers.length : ℤ), powers, S.maxD⟩ := by
  have hS : S.setCount (powers.length : ℤ) =
      (⟨(powers.length : ℤ), List.replicate powers.length 0, S.maxD⟩ : DistanceRandom) := by
    unfold DistanceRandom.setCount
    split_ifs with h
    · have h0 : powers.length = 0 := by omega
      rw [h0]
      rfl
    · rw [Int.toNat_natCast]
  rw [hS]
  unfold fillDistances
  have henum : List.enum powers = List.enumFrom (([] : List ℚ)).length powers := rfl
  rw [henum]
  exact fillDistances_go powers [] (List.replicate powers.length 0) _ _ (by simp)

theorem commitLightSamplerFrom_eq (S0 : DistanceRandom) (powers : List ℚ)
    (hne : powers ≠ []) :
    commitLightSamplerFrom S0 powers =
      ⟨(powers.length : ℤ), prefixSums 0 powers, powers.sum⟩ := by
  have hlen : 0 < powers.length := List.length_pos.mpr hne
  unfold commitLightSamplerFrom
  rw [fillDistances_eq, if_pos hlen]
  unfold DistanceRandom.calculate
  have htn : (((powers.length : ℤ)) - 1).toNat = powers.length - 1 := by omega
  have hmax : (prefixSums 0 powers).getD (powers.length - 1) 0 = powers.sum := by
    rw [prefixSums_getD 0 powers (powers.length - 1) (by omega)]
    rw [show powers.length - 1 + 1 = powers.length by omega]
    rw [List.take_length]
    ring
  simp only [htn, hmax]

theorem commitLightSamplerFrom_nil (S0 : DistanceRandom) :
    commitLightSamplerFrom S0 [] = ⟨0, [], S0.maxD⟩ := rfl

theorem getValue_char (powers : List ℚ) (hp : ∀ p ∈ powers, 0 < p) (hne : powers ≠ [])
    (d : ℚ) (hd : d < powers.sum) :
    DistanceRandom.getValue ⟨(powers.length : ℤ), prefixSums 0 powers, powers.sum⟩ d =
      if 2 ≤ powers.length ∧ ¬(d ≤ (prefixSums 0 powers).getD 0 0) ∧
          (prefixSums 0 powers).getD (powers.length - 2) 0 ≤ d
      then ((powers.length - 1 : ℕ) : ℤ) else (leastK d (prefixSums 0 powers) : ℤ) := by
  have hlen : 0 < powers.length := List.length_pos.mpr hne
  have hDlen : (prefixSums 0 powers).length = powers.length := prefixSums_length 0 powers
  unfold DistanceRandom.getValue
  dsimp only
  rw [if_neg (by omega)]
  by_cases h1 : (powers.length : ℤ) = 1
  · rw [if_pos h1]
    have hN1 : powers.length = 1 := by omega
    rw [if_neg (fun hc => by omega)]
    have hdd : d ≤ (prefixSums 0 powers).getD 0 0 := by
      rw [prefixSums_getD 0 powers 0 (by omega), zero_add,
        List.take_of_length_le (by omega)]
      exact le_of_lt hd
    cases hcD : prefixSums 0 powers with
    | nil => rw [hcD] at hDlen; simp at hDlen; omega
    | cons a t =>
      rw [leastK, if_pos (by rw [hcD] at hdd; simpa using hdd)]
      rfl
  · rw [if_neg h1]
    by_cases h2 : d ≤ (prefixSums 0 powers).getD 0 0
    · rw [if_pos h2, if_neg (fun hc => hc.2.1 h2)]
      cases hcD : prefixSums 0 powers with
      | nil => rw [hcD] at hDlen; simp at hDlen; omega
      | cons a t =>
        rw [leastK, if_pos (by rw [hcD] at h2; simpa using h2)]
        rfl
    · rw [if_neg h2]
      have hN2 : 2 ≤ powers.length := by omega
      have htn2 : ((powers.length : ℤ) - 2).toNat = powers.length - 2 := by omega
      rw [htn2]
      by_cases h3 : (prefixSums 0 powers).getD (powers.length - 2) 0 ≤ d
      · rw [if_pos h3, if_pos ⟨hN2, h2, h3⟩]
        omega
      · rw [if_neg h3, if_neg (fun hc => h3 hc.2.2)]
        have htn1 : ((powers.length : ℤ) - 1).toNat = powers.length - 1 := by omega
        rw [htn1]
        have hdR : d ≤ (prefixSums 0 powers).getD (powers.length - 1) 0 := by
          rw [prefixSums_getD 0 powers (powers.length - 1) (by omega),
            show powers.length - 1 + 1 = powers.length by omega,
            List.take_of_length_le (le_refl _), zero_add]
          exact le_of_lt hd
        have hb := bsearchGo_least (prefixSums 0 powers) d (powers.length - 1) 0
          (powers.length - 1) (by omega) (by omega) hdR
          (fun i j hi hij hj => prefixSums_mono powers hp i j hij (by omega))
        have hleast := leastK_eq d (prefixSums 0 powers)
          (bsearchGo (prefixSums 0 powers) d (powers.length - 1) 0 (powers.length - 1))
          (by omega) hb.2.2.1 (fun j hj => hb.2.2.2 j (Nat.zero_le j) hj)
        rw [hleast]

theorem getPdf_char (powers : List ℚ) (k : ℕ)
    (hk : k < powers.length) :
    DistanceRandom.getPdf ⟨(powers.length : ℤ), prefixSums 0 powers, powers.sum⟩ (k : ℤ) =
      powers.getD k 0 / powers.sum := by
  unfold DistanceRandom.getPdf
  dsimp only
  rw [if_neg (by push_neg; exact ⟨by omega, by omega⟩)]
  cases k with
  | zero =>
    rw [if_neg (by omega)]
    rw [show ((0 : ℕ) : ℤ).toNat = 0 from rfl]
    rw [prefixSums_getD 0 powers 0 hk, zero_add, take_sum_succ powers 0 hk]
    simp
  | succ k' =>
    rw [if_pos (by omega)]
    rw [show (((k' + 1 : ℕ) : ℤ)).toNat = k' + 1 by omega]
    rw [show (((k' + 1 : ℕ) : ℤ) - 1).toNat = k' by omega]
    rw [prefixSums_getD 0 powers (k' + 1) hk, prefixSums_getD 0 powers k' (by omega),
      zero_add, zero_add, take_sum_succ powers (k' + 1) hk]
    rw [add_sub_cancel_left]

/-- C4, amended: after `commitScene` builds the light CDF from powers
`p1..pN` (all positive), for a variate `r` in `[0,1)` `sampleLight`
returns the least light `k` with `r*sum <= CDF[k]` together with
`pdf = pk/sum` — which is the unique `k` with `CDF[k-1] < r*sum <=
CDF[k]` of the claim in the generic region — except that when `r*sum`
lies at or beyond `CDF[N-2]` (and above `CDF[0]`) the early-out returns
light `N-1` even at the boundary `r*sum = CDF[N-2]`, where the claim's
segment rule would give `N-2`; and when the scene has zero lights it
returns none with pdf 0. -/
theorem sampleLight_spec (s : RenderScene) (S0 : DistanceRandom) (powers : List ℚ) (r : ℚ)
    (hS : s.lightsSampler = commitLightSamplerFrom S0 powers)
    (hp : ∀ p ∈ powers, 0 < p) (hr0 : 0 ≤ r) (hr1 : r < 1) :
    (powers = [] → s.sampleLight r = (none, 0)) ∧
    (powers ≠ [] →
      ∃ k : ℕ, s.sampleLight r = (some k, powers.getD k 0 / powers.sum) ∧
        k < powers.length ∧
        k = (if 2 ≤ powers.length ∧
              ¬(r * powers.sum ≤ (prefixSums 0 powers).getD 0 0) ∧
              (prefixSums 0 powers).getD (powers.length - 2) 0 ≤ r * powers.sum
            then powers.length - 1
            else leastK (r * powers.sum) (prefixSums 0 powers)) ∧
        (¬(r * powers.sum ≤ (prefixSums 0 powers).getD 0 0) →
          ¬((prefixSums 0 powers).getD (powers.length - 2) 0 ≤ r * powers.sum) →
          (1 ≤ k ∧ (prefixSums 0 powers).getD (k - 1) 0 < r * powers.sum ∧
            r * powers.sum ≤ (prefixSums 0 powers).getD k 0))) := by
  constructor
  · intro h
    subst h
    rw [RenderScene.sampleLight, hS, commitLightSamplerFrom_nil]
    rfl
  · intro hne
    have hsum : 0 < powers.sum := List.sum_pos powers hp hne
    have hd0 : 0 ≤ r * powers.sum := mul_nonneg hr0 hsum.le
    have hd1 : r * powers.sum < powers.sum := by nlinarith
    have hDlen : (prefixSums 0 powers).length = powers.length := prefixSums_length 0 powers
    have hlen : 0 < powers.length := List.length_pos.mpr hne
    rw [RenderScene.sampleLight, hS, commitLightSamplerFrom_eq S0 powers hne]
    simp only [DistanceRandom.getRandom]
    rw [getValue_char powers hp hne (r * powers.sum) hd1]
    by_cases hc : 2 ≤ powers.length ∧
        ¬(r * powers.sum ≤ (prefixSums 0 powers).getD 0 0) ∧
        (prefixSums 0 powers).getD (powers.length - 2) 0 ≤ r * powers.sum
    · rw [if_pos hc]
      refine ⟨powers.length - 1, ?_, by omega, by rw [if_pos hc], ?_⟩
      · rw [if_pos (by omega), Int.toNat_natCast,
          getPdf_char powers (powers.length - 1) (by omega)]
      · intro _ h3
        exact absurd hc.2.2 h3
    · rw [if_neg hc]
      have hdR : r * powers.sum ≤ (prefixSums 0 powers).getD (powers.length - 1) 0 := by
        rw [prefixSums_getD 0 powers (powers.length - 1) (by omega),
          show powers.length - 1 + 1 = powers.length by omega,
          List.take_of_length_le (le_refl _), zero_add]
        exact le_of_lt hd1
      have hl := leastK_spec (r * powers.sum) (prefixSums 0 powers)
        ⟨powers.length - 1, by omega, hdR⟩
      refine ⟨leastK (r * powers.sum) (prefixSums 0 powers), ?_, by omega,
        by rw [if_neg hc], ?_⟩
      · rw [if_pos (by omega), Int.toNat_natCast,
          getPdf_char powers (leastK (r * powers.sum) (prefixSums 0 powers)) (by omega)]
      · intro h2 h3
        have h1 : 1 ≤ leastK (r * powers.sum) (prefixSums 0 powers) := by
          by_contra hzero
          exact h2 (by
            have h0 : leastK (r * powers.sum) (prefixSums 0 powers) = 0 := by omega
            rw [← h0]
            exact hl.2.1)
        refine ⟨h1, ?_, hl.2.1⟩
        have := hl.2.2 (leastK (r * powers.sum) (prefixSums 0 powers) - 1) (by omega)
        exact lt_of_not_le this

/-- Witness for C4 (amended): a zero-light scene yields `(none, 0)`,
and a two-light scene with powers `(2,2)` yields a light with its
selection probability. -/
theorem sampleLight_spec_witness :
    RenderScene.sampleLight
      ⟨[], [], [], [], [], commitLightSamplerFrom DistanceRandom.init [], true, true, none⟩
      (1/4) = (none, 0) ∧
    ∃ k : ℕ, RenderScene.sampleLight
      ⟨[], [], [], [], [], commitLightSamplerFrom DistanceRandom.init [2, 2], true, true, none⟩
      (1/4) = (some k, ([2, 2] : List ℚ).getD k 0 / ([2, 2] : List ℚ).sum) := by
  constructor
  · exact (sampleLight_spec
      ⟨[], [], [], [], [], commitLightSamplerFrom DistanceRandom.init [], true, true, none⟩
      DistanceRandom.init [] (1/4) rfl (by simp) (by norm_num) (by norm_num)).1 rfl
  · obtain ⟨k, hk, -⟩ := (sampleLight_spec
      ⟨[], [], [], [], [], commitLightSamplerFrom DistanceRandom.init [2, 2], true, true, none⟩
      DistanceRandom.init [2, 2] (1/4) rfl (by norm_num) (by norm_num) (by norm_num)).2 (by simp)
    exact ⟨k, hk⟩

/-- Counterexample to C4 as stated: three unit-power lights give the
CDF `[1,2,3]`; at `r = 2/3` the sampled value `r*sum = 2` sits exactly
on `CDF[1]`, so the claim's segment rule `CDF[k-1] < r*sum <= CDF[k]`
picks light 1, but `getValue`'s early-out `d >= m_distances[m_iN-2]`
returns light 2 (with pdf 1/3). -/
theorem sampleLight_counterexample :
    RenderScene.sampleLight
      ⟨[], [], [], [], [], commitLightSamplerFrom DistanceRandom.init [1, 1, 1], true, true, none⟩
      (2/3) = (some 2, 1/3) ∧
    prefixSums 0 [1, 1, 1] = [1, 2, 3] ∧
    (2/3 : ℚ) * ([1, 1, 1] : List ℚ).sum = 2 ∧
    ((1 : ℚ) < 2 ∧ (2 : ℚ) ≤ 2) ∧
    (2 : ℕ) ≠ 1 := by
  have hcs : commitLightSamplerFrom DistanceRandom.init [1, 1, 1] =
      ⟨3, [1, 2, 3], 3⟩ := by
    rw [commitLightSamplerFrom_eq DistanceRandom.init [1, 1, 1] (by simp)]
    norm_num [prefixSums]
  refine ⟨?_, by norm_num [prefixSums], by norm_num, by norm_num, by norm_num⟩
  rw [RenderScene.sampleLight]
  dsimp only
  rw [hcs, DistanceRandom.getRandom]
  dsimp only
  norm_num [DistanceRandom.getValue, DistanceRandom.getPdf,
    show ((2 : ℤ)).toNat = 2 from rfl]
